import Mathlib

/-!
Verification development for the windows-screenshot repository.

The development shallowly embeds the two core source files:
  - src/bmpToRgb.ts     (BMP decoder, pure)
  - src/ScreenCapture.ts (capture engine: palette tables, BMP assembly,
                          and the native-call orchestration of captureScreen)

Modelling conventions:
  - A JS Uint8Array / DataView over bytes is a `List Nat` of byte values.
  - DataView reads throw a RangeError when out of bounds; this and the
    TypeError from indexing past the end of a JS array are modelled as
    `Except.error "RuntimeError"`.  Explicit `throw new Error(msg)` in the
    source keeps its message.
  - JS number arithmetic on the values that occur here is modelled exactly:
    integer arithmetic in `Nat`/`Int`, float division and `Math.round` in
    `Rat` (the float results in the source never fall close enough to a
    rounding boundary for double rounding to differ from exact rationals).
  - JS bitwise operators convert to 32-bit two's complement; `toInt32`
    performs that conversion, arithmetic shift right is `Int.ediv` by a
    power of two and the low bit is `Int.emod 2`.
  - The source's `countBits` loops forever when its argument has bit 31 set
    (the signed `>>=` keeps the value at -1).  Divergence is modelled as
    `Except.error "NonTermination"`.
  - In-place writes into a preallocated output buffer, performed row by row
    and pixel by pixel at consecutive offsets, are modelled as the
    flattening of the list of rows, each row the flattening of its pixels.
-/

/-- Byte buffers (JS Uint8Array / DataView contents). -/
abbrev Bytes := List Nat

/-- DataView.getUint8: reads one byte, RangeError when out of bounds. -/
def getU8 (b : Bytes) (i : Nat) : Except String Nat :=
  if i < b.length then .ok (b.getD i 0) else .error "RuntimeError"

/-- DataView.getUint16 little endian (reads bytes i and i+1). -/
def getU16 (b : Bytes) (i : Nat) : Except String Nat := do
  let b0 ← getU8 b i
  let b1 ← getU8 b (i + 1)
  pure (b0 + 256 * b1)

/-- DataView.getUint32 little endian (reads bytes i..i+3). -/
def getU32 (b : Bytes) (i : Nat) : Except String Nat := do
  let b0 ← getU8 b i
  let b1 ← getU8 b (i + 1)
  let b2 ← getU8 b (i + 2)
  let b3 ← getU8 b (i + 3)
  pure (b0 + 256 * b1 + 65536 * b2 + 16777216 * b3)

/-- DataView.getInt32 little endian: the u32 reinterpreted in two's complement. -/
def getI32 (b : Bytes) (i : Nat) : Except String Int := do
  let v ← getU32 b i
  pure (if v < 2 ^ 31 then (v : Int) else (v : Int) - 2 ^ 32)

/-- Total little-endian u32 field reader (missing bytes read as 0); used to
state header-field properties. Agrees with `getU32` on in-bounds reads. -/
def peekU32 (b : Bytes) (i : Nat) : Nat :=
  b.getD i 0 + 256 * b.getD (i + 1) 0 + 65536 * b.getD (i + 2) 0 +
    16777216 * b.getD (i + 3) 0

/-- Total little-endian u16 field reader. -/
def peekU16 (b : Bytes) (i : Nat) : Nat :=
  b.getD i 0 + 256 * b.getD (i + 1) 0

/-- Total little-endian i32 field reader (two's complement). -/
def peekI32 (b : Bytes) (i : Nat) : Int :=
  if peekU32 b i < 2 ^ 31 then (peekU32 b i : Int) else (peekU32 b i : Int) - 2 ^ 32

/-- Little-endian byte serialization of a 16-bit value (DataView.setUint16). -/
def u16LE (v : Nat) : Bytes := [v % 256, v / 256 % 256]

/-- Little-endian byte serialization of a 32-bit value (DataView.setUint32). -/
def u32LE (v : Nat) : Bytes :=
  [v % 256, v / 256 % 256, v / 65536 % 256, v / 16777216 % 256]

/-- ToInt32: reinterpret a number as 32-bit two's complement (JS bitwise ops). -/
def toInt32 (v : Nat) : Int :=
  if v % 2 ^ 32 < 2 ^ 31 then ((v % 2 ^ 32 : Nat) : Int)
  else ((v % 2 ^ 32 : Nat) : Int) - 2 ^ 32

/-- ToUint8: the conversion applied when storing into a Uint8Array. -/
def jsToUint8 (v : Int) : Nat := (v.emod 256).toNat

/-- Math.round for the (finite) values modelled as rationals: half rounds up. -/
def jsRound (q : ℚ) : Int := ⌊q + 1 / 2⌋

/-- JS `%` (fmod) restricted to nonnegative rational operands as used in the
RLE4 alignment test: a - b * trunc(a / b), and trunc = floor for a, b ≥ 0. -/
def jsFmod (a b : ℚ) : ℚ := a - b * ⌊a / b⌋

/-- A representation of a RGB image (decoder output).  Width is the raw
signed width field; height is the absolute value the source returns. -/
structure RGBImage where
  width : Int
  height : Int
  channels : Nat
  data : Bytes
deriving Repr, DecidableEq

deriving instance DecidableEq for Except

/-- readPalette (bmpToRgb.ts): reads colorsUsed RGBQUAD entries at offset
14+40; an entry whose 4 bytes are not fully inside the buffer is black. -/
def readPalette (dataView : Bytes) (colorsUsed : Nat) : List Bytes :=
  (List.range colorsUsed).map (fun i =>
    let offset := 14 + 40 + i * 4
    if offset + 3 < dataView.length then
      [dataView.getD (offset + 2) 0, dataView.getD (offset + 1) 0, dataView.getD offset 0]
    else
      [0, 0, 0])

/-- JS `palette[colorIndex]`: indexing past the end yields undefined, and the
subsequent component access throws (modelled as a runtime error). -/
def paletteGet (palette : List Bytes) (i : Nat) : Except String Bytes :=
  if i < palette.length then .ok (palette.getD i []) else .error "RuntimeError"

/-- The bytes written for one pixel of the output buffer (RGB, plus A when
channels = 4), as in the store sequence at the end of each per-pixel loop. -/
def pixelChunk (channels r g b a : Nat) : Bytes :=
  if channels = 4 then [r, g, b, a] else [r, g, b]

/-- One pixel of processUncompressedBitmap: the per-bit-depth switch.  The
default case leaves the initial r = 0, g = 0, b = 0, a = 255 untouched. -/
def uncompressedPixel (dataView : Bytes) (bitDepth : Nat) (palette : List Bytes)
    (channels srcRowOffset x : Nat) : Except String Bytes :=
  match bitDepth with
  | 1 => do
      let byte ← getU8 dataView (srcRowOffset + x / 8)
      let bitPosition := 7 - x % 8
      let colorIndex := (byte >>> bitPosition) &&& 0x01
      let c ← paletteGet palette colorIndex
      pure (pixelChunk channels (c.getD 0 0) (c.getD 1 0) (c.getD 2 0) 255)
  | 4 => do
      let byte ← getU8 dataView (srcRowOffset + x / 2)
      let nibblePosition := 1 - x % 2
      let colorIndex := (byte >>> (nibblePosition * 4)) &&& 0x0F
      let c ← paletteGet palette colorIndex
      pure (pixelChunk channels (c.getD 0 0) (c.getD 1 0) (c.getD 2 0) 255)
  | 8 => do
      let colorIndex ← getU8 dataView (srcRowOffset + x)
      let c ← paletteGet palette colorIndex
      pure (pixelChunk channels (c.getD 0 0) (c.getD 1 0) (c.getD 2 0) 255)
  | 16 => do
      let pixel ← getU16 dataView (srcRowOffset + x * 2)
      let r := ((pixel >>> 10) &&& 0x1F) * 255 / 31
      let g := ((pixel >>> 5) &&& 0x1F) * 255 / 31
      let b := (pixel &&& 0x1F) * 255 / 31
      pure (pixelChunk channels r g b 255)
  | 24 => do
      let b ← getU8 dataView (srcRowOffset + x * 3)
      let g ← getU8 dataView (srcRowOffset + x * 3 + 1)
      let r ← getU8 dataView (srcRowOffset + x * 3 + 2)
      pure (pixelChunk channels r g b 255)
  | 32 => do
      let b ← getU8 dataView (srcRowOffset + x * 4)
      let g ← getU8 dataView (srcRowOffset + x * 4 + 1)
      let r ← getU8 dataView (srcRowOffset + x * 4 + 2)
      let a ← getU8 dataView (srcRowOffset + x * 4 + 3)
      pure (pixelChunk channels r g b a)
  | _ => pure (pixelChunk channels 0 0 0 255)

/-- One output row of processUncompressedBitmap. -/
def uncompressedRow (dataView : Bytes) (bitDepth : Nat) (palette : List Bytes)
    (width channels srcRowOffset : Nat) : Except String Bytes :=
  ((List.range width).mapM
    (fun x => uncompressedPixel dataView bitDepth palette channels srcRowOffset x)).map
    List.flatten

/-- processUncompressedBitmap (bmpToRgb.ts lines 125-228). -/
def processUncompressedBitmap (dataView : Bytes) (width height bitDepth : Nat)
    (pixelDataOffset colorsUsed : Nat) (isTopDown : Bool) (channels : Nat) :
    Except String Bytes :=
  let stride := (bitDepth * width + 31) / 32 * 4
  let palette := readPalette dataView colorsUsed
  ((List.range height).mapM (fun y =>
      let srcY := if isTopDown then y else height - 1 - y
      uncompressedRow dataView bitDepth palette width channels
        (pixelDataOffset + srcY * stride))).map List.flatten

/-- RLE encoded-mode run (RLE8): repeat value count times; out-of-bounds
positions are dropped but x still advances. -/
def rle8Run (width height : Nat) : Nat → Nat → Nat → Nat → Bytes → Bytes
  | 0, _, _, _, pixels => pixels
  | count + 1, value, x, y, pixels =>
    rle8Run width height count value (x + 1) y
      (if x < width ∧ y < height then pixels.set (y * width + x) value else pixels)

/-- RLE8 absolute mode inner loop: copy the next j bytes as literal indices;
returns the updated (x, i, pixels).  The source breaks out when the input
is exhausted, and advances i also for dropped out-of-bounds pixels. -/
def rle8Abs (dataView : Bytes) (width height : Nat) :
    Nat → Nat → Nat → Nat → Bytes → Nat × Nat × Bytes
  | 0, x, _, i, pixels => (x, i, pixels)
  | j + 1, x, y, i, pixels =>
    if i ≥ dataView.length then (x, i, pixels)
    else if x < width ∧ y < height then
      rle8Abs dataView width height j (x + 1) y (i + 1)
        (pixels.set (y * width + x) (dataView.getD i 0))
    else
      rle8Abs dataView width height j (x + 1) y (i + 1) pixels

/-- The RLE8 decode loop (bmpToRgb.ts lines 250-301).  The loop guard
`i < byteLength - 1 && y < height` is `i + 1 < length` in Nat.  Each
iteration advances i by at least 2, so fuel `length + 1` never runs out
on a real execution. -/
def rle8DecodeLoop (dataView : Bytes) (width height : Nat) :
    Nat → Nat → Nat → Nat → Bytes → Bytes
  | 0, _, _, _, pixels => pixels
  | fuel + 1, x, y, i, pixels =>
    if i + 1 < dataView.length ∧ y < height then
      let count := dataView.getD i 0
      let value := dataView.getD (i + 1) 0
      let i2 := i + 2
      if count = 0 then
        if value = 0 then
          rle8DecodeLoop dataView width height fuel 0 (y + 1) i2 pixels
        else if value = 1 then
          rle8DecodeLoop dataView width height fuel x y dataView.length pixels
        else if value = 2 then
          if i2 + 1 ≥ dataView.length then
            rle8DecodeLoop dataView width height fuel x y i2 pixels
          else
            rle8DecodeLoop dataView width height fuel
              (x + dataView.getD i2 0) (y + dataView.getD (i2 + 1) 0) (i2 + 2) pixels
        else
          let s := rle8Abs dataView width height value x y i2 pixels
          let i3 := if value % 2 = 1 then s.2.1 + 1 else s.2.1
          rle8DecodeLoop dataView width height fuel s.1 y i3 s.2.2
      else
        rle8DecodeLoop dataView width height fuel (x + count) y i2
          (rle8Run width height count value x y pixels)
    else pixels

/-- One output row of the RLE expansion phase (shared by RLE8 and RLE4):
palette-expand the decoded index of each pixel of source row srcY. -/
def rleExpandRow (palette : List Bytes) (decodedPixels : Bytes)
    (width channels srcY : Nat) : Except String Bytes :=
  ((List.range width).mapM (fun x => do
      let c ← paletteGet palette (decodedPixels.getD (srcY * width + x) 0)
      pure (pixelChunk channels (c.getD 0 0) (c.getD 1 0) (c.getD 2 0) 255))).map
    List.flatten

/-- processRLE8Bitmap (bmpToRgb.ts lines 233-323). -/
def processRLE8Bitmap (dataView : Bytes) (width height : Nat)
    (pixelDataOffset colorsUsed : Nat) (isTopDown : Bool) (channels : Nat) :
    Except String Bytes :=
  let palette := readPalette dataView colorsUsed
  let decodedPixels := rle8DecodeLoop dataView width height (dataView.length + 1)
    0 0 pixelDataOffset (List.replicate (width * height) 0)
  ((List.range height).mapM (fun y =>
      let srcY := if isTopDown then y else height - 1 - y
      rleExpandRow palette decodedPixels width channels srcY)).map List.flatten

/-- RLE4 encoded-mode run: alternate the high and low nibble of value,
starting with the high nibble (j even). -/
def rle4Run (width height : Nat) (highNibble lowNibble : Nat) :
    Nat → Nat → Nat → Nat → Bytes → Bytes
  | 0, _, _, _, pixels => pixels
  | count + 1, j, x, y, pixels =>
    rle4Run width height highNibble lowNibble count (j + 1) (x + 1) y
      (if x < width ∧ y < height then
        pixels.set (y * width + x) (if j % 2 = 0 then highNibble else lowNibble)
      else pixels)

/-- RLE4 absolute mode inner loop; nib is the nibbleIndex state (0 = the next
pixel reads a fresh byte's high nibble, 1 = the low nibble of byte i-1). -/
def rle4Abs (dataView : Bytes) (width height : Nat) :
    Nat → Nat → Nat → Nat → Nat → Bytes → Nat × Nat × Bytes
  | 0, _, x, _, i, pixels => (x, i, pixels)
  | j + 1, nib, x, y, i, pixels =>
    if nib = 0 then
      if i ≥ dataView.length then (x, i, pixels)
      else
        rle4Abs dataView width height j 1 (x + 1) y (i + 1)
          (if x < width ∧ y < height then
            pixels.set (y * width + x) ((dataView.getD i 0 >>> 4) &&& 0x0F)
          else pixels)
    else
      rle4Abs dataView width height j 0 (x + 1) y i
        (if x < width ∧ y < height then
          pixels.set (y * width + x) (dataView.getD (i - 1) 0 &&& 0x0F)
        else pixels)

/-- The word-alignment test of RLE4 absolute mode (bmpToRgb.ts line 394),
verbatim: `(value + 1) / 2 % 2 === 1` with JS float division and fmod
(the operands are small enough for floats to be exact rationals). -/
def jsRLE4AbsolutePadQ (value : Nat) : Bool :=
  jsFmod ((value + 1 : ℚ) / 2) 2 == 1

/-- Executable form of the alignment test: (value+1)/2 fmod 2 is the exact
rational (value+1 mod 4)/2, which equals 1 iff value + 1 ≡ 2 (mod 4).
`jsRLE4AbsolutePad_eq_verbatim` proves this equal to the verbatim form. -/
def jsRLE4AbsolutePad (value : Nat) : Bool :=
  (value + 1) % 4 == 2

/-- The RLE4 decode loop (bmpToRgb.ts lines 345-410). -/
def rle4DecodeLoop (dataView : Bytes) (width height : Nat) :
    Nat → Nat → Nat → Nat → Bytes → Bytes
  | 0, _, _, _, pixels => pixels
  | fuel + 1, x, y, i, pixels =>
    if i + 1 < dataView.length ∧ y < height then
      let count := dataView.getD i 0
      let value := dataView.getD (i + 1) 0
      let i2 := i + 2
      if count = 0 then
        if value = 0 then
          rle4DecodeLoop dataView width height fuel 0 (y + 1) i2 pixels
        else if value = 1 then
          rle4DecodeLoop dataView width height fuel x y dataView.length pixels
        else if value = 2 then
          if i2 + 1 ≥ dataView.length then
            rle4DecodeLoop dataView width height fuel x y i2 pixels
          else
            rle4DecodeLoop dataView width height fuel
              (x + dataView.getD i2 0) (y + dataView.getD (i2 + 1) 0) (i2 + 2) pixels
        else
          let s := rle4Abs dataView width height value 0 x y i2 pixels
          let i3 := if jsRLE4AbsolutePad value then s.2.1 + 1 else s.2.1
          rle4DecodeLoop dataView width height fuel s.1 y i3 s.2.2
      else
        rle4DecodeLoop dataView width height fuel (x + count) y i2
          (rle4Run width height ((value >>> 4) &&& 0x0F) (value &&& 0x0F) count 0 x y pixels)
    else pixels

/-- processRLE4Bitmap (bmpToRgb.ts lines 328-432). -/
def processRLE4Bitmap (dataView : Bytes) (width height : Nat)
    (pixelDataOffset colorsUsed : Nat) (isTopDown : Bool) (channels : Nat) :
    Except String Bytes :=
  let palette := readPalette dataView colorsUsed
  let decodedPixels := rle4DecodeLoop dataView width height (dataView.length + 1)
    0 0 pixelDataOffset (List.replicate (width * height) 0)
  ((List.range height).mapM (fun y =>
      let srcY := if isTopDown then y else height - 1 - y
      rleExpandRow palette decodedPixels width channels srcY)).map List.flatten

/-- findLowestSetBit inner loop on the 32-bit signed value (`mask & 1`,
`mask >>= 1`).  For every nonzero int32 the loop stops within 32 steps;
the fuel-out default is unreachable. -/
def findLowestSetBitGo : Nat → Int → Nat → Nat
  | 0, _, shift => shift
  | fuel + 1, m, shift =>
    if m.emod 2 = 0 then findLowestSetBitGo fuel (m.ediv 2) (shift + 1) else shift

/-- findLowestSetBit (bmpToRgb.ts lines 570-579). -/
def findLowestSetBit (mask : Nat) : Nat :=
  if mask = 0 then 0 else findLowestSetBitGo 64 (toInt32 mask) 0

/-- countBits inner loop.  The signed `m >>= 1` never drives a negative m to
zero, so for a mask with bit 31 set the source loops forever; running out
of fuel models that divergence as an error. -/
def countBitsGo : Nat → Int → Nat → Except String Nat
  | 0, m, count => if m = 0 then .ok count else .error "NonTermination"
  | fuel + 1, m, count =>
    if m = 0 then .ok count
    else countBitsGo fuel (m.ediv 2) (count + (m.emod 2).toNat)

/-- countBits (bmpToRgb.ts lines 584-594). -/
def countBits (mask : Nat) : Except String Nat :=
  if mask = 0 then .ok 0 else countBitsGo 64 (toInt32 mask) 0

/-- JS `1 << bits` (shift count taken mod 32, result reinterpreted as i32). -/
def jsShl1 (bits : Nat) : Int := toInt32 (2 ^ (bits % 32))

/-- Per-channel scale factor 255 / ((1 << bits) - 1), 0 when bits = 0. -/
def bitfieldsScale (bits : Nat) : ℚ :=
  if bits > 0 then (255 : ℚ) / ((jsShl1 bits : ℚ) - 1) else 0

/-- Extract-and-scale of one colour component in the BITFIELDS branch:
`Math.min(255, Math.round(((pixel & mask) >> shift) * scale))`, then the
Uint8Array store conversion. -/
def bitfieldsComponent (pixel mask : Nat) (shift : Nat) (scale : ℚ) : Nat :=
  jsToUint8 (min 255 (jsRound (((toInt32 (pixel &&& mask)).ediv (2 ^ shift) : ℚ) * scale)))

/-- One pixel of processBitfieldsBitmap. -/
def bitfieldsPixel (dataView : Bytes) (bitDepth : Nat)
    (redMask greenMask blueMask alphaMask : Nat)
    (redShift greenShift blueShift alphaShift : Nat)
    (redScale greenScale blueScale alphaScale : ℚ)
    (channels byteOffset : Nat) : Except String Bytes := do
  let pixel ← if bitDepth = 16 then getU16 dataView byteOffset else getU32 dataView byteOffset
  let r := bitfieldsComponent pixel redMask redShift redScale
  let g := bitfieldsComponent pixel greenMask greenShift greenScale
  let b := bitfieldsComponent pixel blueMask blueShift blueScale
  let a := if alphaMask ≠ 0 then bitfieldsComponent pixel alphaMask alphaShift alphaScale else 255
  pure (pixelChunk channels r g b a)

/-- The BITFIELDS mask reads (bmpToRgb.ts lines 447-476): masks come from the
bytes after the 40-byte info header (BI_BITFIELDS extra masks) or from a
V4/V5 header, else default to 0. -/
def bitfieldsMaskRead (dataView : Bytes) (bitDepth pixelDataOffset headerSize : Nat) :
    Except String (Nat × Nat × Nat × Nat) :=
  if headerSize = 40 then do
    let r ← getU32 dataView (14 + 40)
    let g ← getU32 dataView (14 + 44)
    let b ← getU32 dataView (14 + 48)
    let a ← if bitDepth = 32 ∧ pixelDataOffset ≥ 14 + 52 + 4 then getU32 dataView (14 + 52)
      else pure 0
    pure (r, g, b, a)
  else if headerSize ≥ 56 then do
    let r ← getU32 dataView (14 + 40)
    let g ← getU32 dataView (14 + 44)
    let b ← getU32 dataView (14 + 48)
    let a ← getU32 dataView (14 + 52)
    pure (r, g, b, a)
  else
    pure ((0 : Nat), (0 : Nat), (0 : Nat), (0 : Nat))

/-- One output row of processBitfieldsBitmap (the inner x loop). -/
def bitfieldsRow (dataView : Bytes) (bitDepth : Nat)
    (redMask greenMask blueMask alphaMask : Nat)
    (redShift greenShift blueShift alphaShift : Nat)
    (redScale greenScale blueScale alphaScale : ℚ)
    (width channels rowOffset bytesPerPixel : Nat) : Except String Bytes :=
  ((List.range width).mapM (fun x =>
      bitfieldsPixel dataView bitDepth redMask greenMask blueMask alphaMask
        redShift greenShift blueShift alphaShift
        redScale greenScale blueScale alphaScale channels
        (rowOffset + x * bytesPerPixel))).map List.flatten

/-- processBitfieldsBitmap (bmpToRgb.ts lines 437-542). -/
def processBitfieldsBitmap (dataView : Bytes) (width height bitDepth : Nat)
    (pixelDataOffset headerSize : Nat) (isTopDown : Bool) (channels : Nat) :
    Except String Bytes := do
  let masks ← bitfieldsMaskRead dataView bitDepth pixelDataOffset headerSize
  let dflt := masks.1 = 0 ∧ masks.2.1 = 0 ∧ masks.2.2.1 = 0
  let redMask := if dflt ∧ bitDepth = 16 then 0x7C00
    else if dflt ∧ bitDepth = 32 then 0x00FF0000 else masks.1
  let greenMask := if dflt ∧ bitDepth = 16 then 0x03E0
    else if dflt ∧ bitDepth = 32 then 0x0000FF00 else masks.2.1
  let blueMask := if dflt ∧ bitDepth = 16 then 0x001F
    else if dflt ∧ bitDepth = 32 then 0x000000FF else masks.2.2.1
  let alphaMask := if dflt ∧ bitDepth = 32 then 0xFF000000 else masks.2.2.2
  let redShift := findLowestSetBit redMask
  let greenShift := findLowestSetBit greenMask
  let blueShift := findLowestSetBit blueMask
  let alphaShift := findLowestSetBit alphaMask
  let redBits ← countBits redMask
  let greenBits ← countBits greenMask
  let blueBits ← countBits blueMask
  let alphaBits ← countBits alphaMask
  let redScale := bitfieldsScale redBits
  let greenScale := bitfieldsScale greenBits
  let blueScale := bitfieldsScale blueBits
  let alphaScale := bitfieldsScale alphaBits
  let bytesPerPixel := bitDepth / 8
  let stride := (bitDepth * width + 31) / 32 * 4
  ((List.range height).mapM (fun y =>
      let srcY := if isTopDown then y else height - 1 - y
      bitfieldsRow dataView bitDepth redMask greenMask blueMask alphaMask
        redShift greenShift blueShift alphaShift
        redScale greenScale blueScale alphaScale width channels
        (pixelDataOffset + srcY * stride) bytesPerPixel)).map List.flatten

/-- The effective masks after the default-mask substitution of
processBitfieldsBitmap (all-zero RGB masks fall back to the standard 565/8888
layouts); a restatement of the let-chain used to phrase evaluation lemmas. -/
def bitfieldsDefaultMasks (masks : Nat × Nat × Nat × Nat) (bitDepth : Nat) :
    Nat × Nat × Nat × Nat :=
  let dflt := masks.1 = 0 ∧ masks.2.1 = 0 ∧ masks.2.2.1 = 0
  (if dflt ∧ bitDepth = 16 then 0x7C00
    else if dflt ∧ bitDepth = 32 then 0x00FF0000 else masks.1,
   if dflt ∧ bitDepth = 16 then 0x03E0
    else if dflt ∧ bitDepth = 32 then 0x0000FF00 else masks.2.1,
   if dflt ∧ bitDepth = 16 then 0x001F
    else if dflt ∧ bitDepth = 32 then 0x000000FF else masks.2.2.1,
   if dflt ∧ bitDepth = 32 then 0xFF000000 else masks.2.2.2)

/-- The body of bmpToRgb after the header fields have been read
(bmpToRgb.ts lines 40-119): orientation, palette-size defaulting, output
format, and the dispatch on the compression field. -/
def bmpDecode (bmp : Bytes) (pixelDataOffset headerSize : Nat) (width heightRaw : Int)
    (bitDepth compression colorsUsedRaw : Nat) : Except String RGBImage := do
  let isTopDown : Bool := decide (heightRaw < 0)
  let height := heightRaw.natAbs
  let colorsUsed := if colorsUsedRaw = 0 ∧ bitDepth ≤ 8 then 1 <<< bitDepth else colorsUsedRaw
  let channels := if bitDepth = 32 then 4 else 3
  if width < 0 then
    throw "RuntimeError"
  let w := width.toNat
  let data ←
    match compression with
    | 0 => (processUncompressedBitmap bmp w height bitDepth pixelDataOffset colorsUsed
        isTopDown channels)
    | 1 =>
      (if bitDepth ≠ 8 then throw "RLE8 compression requires 8-bit depth"
      else processRLE8Bitmap bmp w height pixelDataOffset colorsUsed isTopDown channels)
    | 2 =>
      (if bitDepth ≠ 4 then throw "RLE4 compression requires 4-bit depth"
      else processRLE4Bitmap bmp w height pixelDataOffset colorsUsed isTopDown channels)
    | 3 =>
      (if ¬(bitDepth = 16 ∨ bitDepth = 32) then
        throw "BITFIELDS compression requires 16-bit or 32-bit depth"
      else processBitfieldsBitmap bmp w height bitDepth pixelDataOffset headerSize
        isTopDown channels)
    | c => throw ("Unsupported compression type: " ++ toString c)
  pure { width := width, height := (height : Int), channels := channels, data := data }

/-- bmpToRgb (bmpToRgb.ts lines 20-120): signature check, header-field reads,
then `bmpDecode`. -/
def bmpToRgb (bmp : Bytes) : Except String RGBImage := do
  let b0 ← getU8 bmp 0
  let b1 ← getU8 bmp 1
  if ¬(b0 = 0x42 ∧ b1 = 0x4D) then
    throw "Invalid BMP file: Signature BM not found"
  let pixelDataOffset ← getU32 bmp 10
  let headerSize ← getU32 bmp 14
  let width ← getI32 bmp 18
  let heightRaw ← getI32 bmp 22
  let bitDepth ← getU16 bmp 28
  let compression ← getU32 bmp 30
  let colorsUsedRaw ← getU32 bmp 46
  bmpDecode bmp pixelDataOffset headerSize width heightRaw bitDepth compression colorsUsedRaw

/-- Bit depth of the image (ScreenCapture.ts BitDepth = 1|4|8|16|24|32). -/
def supportedBitDepths : List Nat := [1, 4, 8, 16, 24, 32]

/-- Type of palette to use for 8-bit color depth. -/
inductive PaletteType where
  | grayscale
  | halftone
deriving Repr, DecidableEq

/-- generate1BitPalette (ScreenCapture.ts lines 885-903): black and white,
each RGBQUAD in Blue, Green, Red, Reserved order. -/
def generate1BitPalette : Bytes := [0, 0, 0, 0, 255, 255, 255, 0]

/-- The color table of generate4BitPalette, written in the source in
BGR order (colors[i] = [Blue, Green, Red]). -/
def fourBitColors : List Bytes :=
  [[0, 0, 0], [0, 0, 128], [0, 128, 0], [0, 128, 128],
   [128, 0, 0], [128, 0, 128], [128, 128, 0], [192, 192, 192],
   [128, 128, 128], [0, 0, 255], [0, 255, 0], [0, 255, 255],
   [255, 0, 0], [255, 0, 255], [255, 255, 0], [255, 255, 255]]

/-- generate4BitPalette (ScreenCapture.ts lines 909-942): 16 RGBQUADs,
palette[i*4 + k] = colors[i][k] for k < 3 and 0 for k = 3. -/
def generate4BitPalette : Bytes :=
  (fourBitColors.map (fun c => [c.getD 0 0, c.getD 1 0, c.getD 2 0, 0])).flatten

/-- generate8BitGrayscalePalette (ScreenCapture.ts lines 948-961). -/
def generate8BitGrayscalePalette : Bytes :=
  ((List.range 256).map (fun i => [i, i, i, 0])).flatten

/-- The 20 standard colors of the halftone palette, written in the source in
RGB order (standardColors[i] = [Red, Green, Blue]). -/
def halftoneStandardColors : List Bytes :=
  [[0, 0, 0], [128, 0, 0], [0, 128, 0], [128, 128, 0],
   [0, 0, 128], [128, 0, 128], [0, 128, 128], [192, 192, 192],
   [128, 128, 128], [255, 0, 0], [0, 255, 0], [255, 255, 0],
   [0, 0, 255], [255, 0, 255], [0, 255, 255], [255, 255, 255],
   [0, 0, 0], [0, 0, 95], [0, 0, 175], [0, 0, 255]]

/-- The gray value of halftone entry 236+i, verbatim:
`Math.round(i * (255 / 19))` (exact rationals; no product lands on a
half-integer boundary, so the float result equals the exact one). -/
def halftoneGrayQ (i : Nat) : Int := jsRound ((i : ℚ) * (255 / 19))

/-- Executable form of the gray ramp value: round half up of p/q is
(2p + q) / (2q) in natural division.  `halftoneGray_eq_verbatim` proves
this equal to the verbatim form. -/
def halftoneGray (i : Nat) : Nat := (i * 255 * 2 + 19) / 38

/-- generate8BitHalftonePalette (ScreenCapture.ts lines 967-1033):
20 standard colors stored BGR0, then the 6x6x6 cube (r outermost, b
innermost) at indices 20-235, then 20 grays at indices 236-255. -/
def generate8BitHalftonePalette : Bytes :=
  (halftoneStandardColors.map (fun c => [c.getD 2 0, c.getD 1 0, c.getD 0 0, 0])).flatten ++
  ((List.range 6).map (fun r =>
      ((List.range 6).map (fun g =>
          ((List.range 6).map (fun b => [b * 51, g * 51, r * 51, 0])).flatten)).flatten)).flatten ++
  ((List.range 20).map (fun i =>
      [halftoneGray i, halftoneGray i, halftoneGray i, 0])).flatten

/-- getNumColorsForBitDepth (ScreenCapture.ts lines 271-282). -/
def getNumColorsForBitDepth (bitDepth : Nat) : Nat :=
  match bitDepth with
  | 1 => 2
  | 4 => 16
  | 8 => 256
  | _ => 0

/-- getPaletteForBitDepth (ScreenCapture.ts lines 288-299); the null of the
default case is the empty byte list (no palette bytes are appended). -/
def getPaletteForBitDepth (bitDepth : Nat) (pt : PaletteType) : Bytes :=
  match bitDepth with
  | 1 => generate1BitPalette
  | 4 => generate4BitPalette
  | 8 => if pt = PaletteType.grayscale then generate8BitGrayscalePalette
         else generate8BitHalftonePalette
  | _ => []

/-- The 14-byte BMP file header written by createBitmapBuffers
(offsets 0, 2, 6/8 both zero, 10). -/
def bmpFileHeader (fileSize pixelDataOffset : Nat) : Bytes :=
  [0x42, 0x4D] ++ u32LE fileSize ++ u32LE 0 ++ u32LE pixelDataOffset

/-- The 40-byte BMP info header written by createBitmapBuffers
(offsets 14, 18, 22, 26, 28, 30, 34, 38, 42, 46, 50). -/
def bmpInfoHeader (width height bitDepth pixelDataSize numColors : Nat) : Bytes :=
  u32LE 40 ++ u32LE width ++ u32LE height ++ u16LE 1 ++ u16LE bitDepth ++
  u32LE 0 ++ u32LE pixelDataSize ++ u32LE 0 ++ u32LE 0 ++
  u32LE numColors ++ u32LE numColors

/-- The BITMAPINFO structure (40-byte header + palette) built by
createBitmapBuffers for the native calls. -/
def bmiBuffer (bitDepth : Nat) (pt : PaletteType) (width height : Nat) : Bytes :=
  let numColors := getNumColorsForBitDepth bitDepth
  bmpInfoHeader width height bitDepth 0 numColors ++ getPaletteForBitDepth bitDepth pt

/-- The BMP stride: `Math.floor((bitDepth * width + 31) / 32) * 4`. -/
def bmpStride (bitDepth width : Nat) : Nat := (bitDepth * width + 31) / 32 * 4

/-- The bmpBuffer assembled by createBitmapBuffers (ScreenCapture.ts lines
307-383): file header, info header, palette, zero-filled pixel region.
The source zero-allocates fileSize bytes and writes the three leading
regions at their contiguous offsets (0-13, 14-53, 54..), which is the
concatenation below. -/
def createBitmapBuffersBmp (bitDepth : Nat) (pt : PaletteType) (width height : Nat) : Bytes :=
  let numColors := getNumColorsForBitDepth bitDepth
  let paletteSize := numColors * 4
  let pixelDataOffset := 14 + 40 + paletteSize
  let stride := bmpStride bitDepth width
  let pixelDataSize := stride * height
  let fileSize := pixelDataOffset + pixelDataSize
  bmpFileHeader fileSize pixelDataOffset ++
  bmpInfoHeader width height bitDepth pixelDataSize numColors ++
  getPaletteForBitDepth bitDepth pt ++
  List.replicate pixelDataSize 0

/-- The pixelDataOffset returned by createBitmapBuffers. -/
def createBitmapBuffersOffset (bitDepth : Nat) : Nat :=
  14 + 40 + getNumColorsForBitDepth bitDepth * 4

/-- The BMP buffer as returned by captureScreen: createBitmapBuffers output
whose pixel region has been overwritten in place by the native copy-out
(`Deno.UnsafePointerView.copyInto(pixelsPtr, bmpBuffer.subarray(pixelDataOffset))`).
The px argument is the pixel region contents after the native fill. -/
def capturedBmp (bitDepth : Nat) (pt : PaletteType) (width height : Nat) (px : Bytes) : Bytes :=
  (createBitmapBuffersBmp bitDepth pt width height).take (createBitmapBuffersOffset bitDepth) ++ px

/-- The RECT structure: signed 32-bit coordinates. -/
structure Rect where
  left : Int
  top : Int
  right : Int
  bottom : Int
deriving Repr, DecidableEq

/-- A partial Rect as accepted by captureScreen (missing fields default). -/
structure PartialRect where
  left : Option Int := none
  top : Option Int := none
  right : Option Int := none
  bottom : Option Int := none
deriving Repr, DecidableEq

/-- The Win32 calls captureScreen and getScreenRect can issue, in the order
the engine makes them.  drawCursorOps abstracts the native sequence of
drawCursorOnDC (GetCursorInfo, GetIconInfo, DrawIconEx, ...), which no
claim inspects. -/
inductive NativeCall where
  | getDCEx
  | getDeviceCaps (index : Nat)
  | releaseDC
  | createCompatibleDC
  | createDIBSection
  | selectObject
  | bitBlt
  | drawCursorOps
  | deleteObject
  | deleteDC
deriving Repr, DecidableEq

/-- The responses of the OS to the native calls captureScreen makes; pixels
is the DIB-section contents read back after the blit. -/
structure NativeEnv where
  screenDCOk : Bool
  memDCOk : Bool
  dibOk : Bool
  selectOk : Bool
  bitBltOk : Bool
  horzRes : Int
  vertRes : Int
  pixels : Nat → Nat

/-- The options state of a ScreenCapture instance. -/
structure ScreenCapture where
  bitDepth : Nat
  paletteType : PaletteType
  includeCursor : Bool
deriving Repr, DecidableEq

/-- getScreenRect (ScreenCapture.ts lines 734-751): acquires the screen DC,
reads DESKTOP_HORZRES (118) and DESKTOP_VERTRES (117), releases the DC.
Returns the trace of native calls alongside the result. -/
def getScreenRect (env : NativeEnv) : List NativeCall × Except String Rect :=
  if ¬env.screenDCOk then
    ([NativeCall.getDCEx], .error "Failed to get screen device context")
  else
    ([NativeCall.getDCEx, NativeCall.getDeviceCaps 118, NativeCall.getDeviceCaps 117,
      NativeCall.releaseDC],
     .ok { left := 0, top := 0, right := env.horzRes, bottom := env.vertRes })

/-- captureScreen (ScreenCapture.ts lines 538-633), as a native-call trace
plus result.  The nested try/finally cleanup calls appear in the trace
on success and error paths exactly as the source releases them. -/
def captureScreen (self : ScreenCapture) (env : NativeEnv) (rect : PartialRect) :
    List NativeCall × Except String Bytes :=
  let s := getScreenRect env
  match s.2 with
  | .error e => (s.1, .error e)
  | .ok screenDSize =>
    let left := rect.left.getD 0
    let top := rect.top.getD 0
    let right := rect.right.getD screenDSize.right
    let bottom := rect.bottom.getD screenDSize.bottom
    let width := right - left
    let height := bottom - top
    if width ≤ 0 ∨ height ≤ 0 then
      (s.1, .error ("Invalid capture area: width=" ++ toString width ++
        ", height=" ++ toString height))
    else if ¬env.screenDCOk then
      (s.1 ++ [NativeCall.getDCEx], .error "Failed to get device context for screen")
    else if ¬env.memDCOk then
      (s.1 ++ [NativeCall.getDCEx, NativeCall.createCompatibleDC, NativeCall.releaseDC],
       .error "Failed to create compatible DC")
    else if ¬env.dibOk then
      (s.1 ++ [NativeCall.getDCEx, NativeCall.createCompatibleDC, NativeCall.createDIBSection,
        NativeCall.deleteDC, NativeCall.releaseDC],
       .error "Failed to create DIB section")
    else if ¬env.selectOk then
      (s.1 ++ [NativeCall.getDCEx, NativeCall.createCompatibleDC, NativeCall.createDIBSection,
        NativeCall.selectObject, NativeCall.deleteObject, NativeCall.deleteDC,
        NativeCall.releaseDC],
       .error "Failed to select bitmap into DC")
    else if ¬env.bitBltOk then
      (s.1 ++ [NativeCall.getDCEx, NativeCall.createCompatibleDC, NativeCall.createDIBSection,
        NativeCall.selectObject, NativeCall.bitBlt, NativeCall.selectObject,
        NativeCall.deleteObject, NativeCall.deleteDC, NativeCall.releaseDC],
       .error "Failed to copy screen data")
    else
      let pixelDataSize := bmpStride self.bitDepth width.toNat * height.toNat
      let px := (List.range pixelDataSize).map env.pixels
      (s.1 ++ [NativeCall.getDCEx, NativeCall.createCompatibleDC, NativeCall.createDIBSection,
        NativeCall.selectObject, NativeCall.bitBlt] ++
        (if self.includeCursor then [NativeCall.drawCursorOps] else []) ++
        [NativeCall.selectObject, NativeCall.deleteObject, NativeCall.deleteDC,
         NativeCall.releaseDC],
       .ok (capturedBmp self.bitDepth self.paletteType width.toNat height.toNat px))

/-- Overwrite consecutive bytes of a buffer starting at index i (used to
state the height-sign-flip claim: the two inputs differ only there). -/
def writeBytes : Bytes → Nat → Bytes → Bytes
  | b, _, [] => b
  | b, i, v :: vs => writeBytes (b.set i v) (i + 1) vs

/-- Modelled from the spec: the 16-color VGA list of section 4.C in the order
and RGB component convention the spec states (black, dark-red (128,0,0),
dark-green (0,128,0), ...). -/
def specVGAColorsRGB : List (Nat × Nat × Nat) :=
  [(0, 0, 0), (128, 0, 0), (0, 128, 0), (128, 128, 0),
   (0, 0, 128), (128, 0, 128), (0, 128, 128), (192, 192, 192),
   (128, 128, 128), (255, 0, 0), (0, 255, 0), (255, 255, 0),
   (0, 0, 255), (255, 0, 255), (0, 255, 255), (255, 255, 255)]

/-- Modelled from the spec: round(a / b) with round half up, as in the
claims about the halftone gray ramp. -/
def specRound (a b : Nat) : Nat := (⌊(a : ℚ) / (b : ℚ) + 1 / 2⌋).toNat

/-- Concrete BMP input for the RLE8 claim: 8-bit, compression 1, width 5,
height -2 (top-down), colorsUsed 67; palette entry 0x41 = (10,20,30) and
0x42 = (40,50,60) (stored BGR0); pixel stream 03 41 00 00 02 42 00 01. -/
def c3bmp : Bytes :=
  [0x42, 0x4D] ++ u32LE 0 ++ u32LE 0 ++ u32LE 322 ++
  u32LE 40 ++ u32LE 5 ++ u32LE (2 ^ 32 - 2) ++ u16LE 1 ++ u16LE 8 ++ u32LE 1 ++
  u32LE 0 ++ u32LE 0 ++ u32LE 0 ++ u32LE 67 ++ u32LE 67 ++
  List.replicate 260 0 ++ [30, 20, 10, 0] ++ [60, 50, 40, 0] ++
  [3, 0x41, 0, 0, 2, 0x42, 0, 1]

/-- The output data the RLE8 claim asserts for c3bmp: row 0 entirely filled
by the two runs, row 1 entirely palette 0. -/
def c3claimedData : Bytes :=
  [10, 20, 30, 10, 20, 30, 10, 20, 30, 40, 50, 60, 40, 50, 60,
   0, 0, 0, 0, 0, 0, 0, 0, 0, 0, 0, 0, 0, 0, 0]

/-- The output data the decoder actually produces for c3bmp: the 00 00
end-of-line escape sits between the two runs, so the second run lands on
row 1. -/
def c3actualData : Bytes :=
  [10, 20, 30, 10, 20, 30, 10, 20, 30, 0, 0, 0, 0, 0, 0,
   40, 50, 60, 40, 50, 60, 0, 0, 0, 0, 0, 0, 0, 0, 0]

/-- Concrete base for the height-sign claim: a 24-bit 1x2 BMP with distinct
rows (bottom row (3,2,1), top row (6,5,4)); the height field (offset 22)
is overwritten by the claim with +2 and -2. -/
def c7base : Bytes :=
  [0x42, 0x4D] ++ u32LE 62 ++ u32LE 0 ++ u32LE 54 ++
  u32LE 40 ++ u32LE 1 ++ u32LE 0 ++ u16LE 1 ++ u16LE 24 ++ u32LE 0 ++
  u32LE 8 ++ u32LE 0 ++ u32LE 0 ++ u32LE 0 ++ u32LE 0 ++
  [1, 2, 3, 0] ++ [4, 5, 6, 0]

/-- The positive-height (bottom-up) member of the concrete pair. -/
def c7pos : Bytes := writeBytes c7base 22 (u32LE 2)

/-- The negative-height (top-down) member of the concrete pair. -/
def c7neg : Bytes := writeBytes c7base 22 (u32LE (2 ^ 32 - 2))

/-- Concrete 50-byte input for the unsupported-bit-depth claim: valid
signature, compression 0, bit depth 2, width 1, height 1. -/
def c10bmp : Bytes :=
  [0x42, 0x4D] ++ u32LE 0 ++ u32LE 0 ++ u32LE 54 ++
  u32LE 40 ++ u32LE 1 ++ u32LE 1 ++ u16LE 1 ++ u16LE 2 ++ u32LE 0 ++
  u32LE 0 ++ u32LE 0 ++ u32LE 0 ++ u32LE 0

/-- A native environment in which every call succeeds and the screen is
1920x1080 with a zeroed framebuffer. -/
def envOk : NativeEnv :=
  { screenDCOk := true, memDCOk := true, dibOk := true, selectOk := true,
    bitBltOk := true, horzRes := 1920, vertRes := 1080, pixels := fun _ => 0 }

/-- The default engine options (bitDepth 24, halftone, cursor on). -/
def scDefault : ScreenCapture :=
  { bitDepth := 24, paletteType := PaletteType.halftone, includeCursor := true }

/-- The invalid capture rectangle of the claim:
left -10, top 0, right -10, bottom 5. -/
def c2rect : PartialRect :=
  { left := some (-10), top := some 0, right := some (-10), bottom := some 5 }

/-! Helper lemmas. -/

theorem getU8_ok (b : Bytes) (i : Nat) (h : i < b.length) :
    getU8 b i = .ok (b.getD i 0) := by
  simp [getU8, h]

theorem getU16_ok (b : Bytes) (i : Nat) (h : i + 1 < b.length) :
    getU16 b i = .ok (peekU16 b i) := by
  rw [getU16, getU8_ok b i (by omega), getU8_ok b (i + 1) (by omega)]
  rfl

theorem getU32_ok (b : Bytes) (i : Nat) (h : i + 3 < b.length) :
    getU32 b i = .ok (peekU32 b i) := by
  rw [getU32, getU8_ok b i (by omega), getU8_ok b (i + 1) (by omega),
    getU8_ok b (i + 2) (by omega), getU8_ok b (i + 3) (by omega)]
  rfl

theorem getI32_ok (b : Bytes) (i : Nat) (h : i + 3 < b.length) :
    getI32 b i = .ok (peekI32 b i) := by
  rw [getI32, getU32_ok b i h]
  rfl

theorem u32_reassemble (v : Nat) (hv : v < 2 ^ 32) :
    v % 256 + 256 * (v / 256 % 256) + 65536 * (v / 65536 % 256) +
      16777216 * (v / 16777216 % 256) = v := by
  omega

theorem jsRLE4AbsolutePad_eq_verbatim (value : Nat) :
    jsRLE4AbsolutePad value = jsRLE4AbsolutePadQ value := by
  have hq : ((value + 1 : ℚ) / 2) / 2 = (((value + 1 : Nat) : ℤ) : ℚ) / ((4 : ℕ) : ℚ) := by
    push_cast
    ring
  have hfrac : jsFmod ((value + 1 : ℚ) / 2) 2 = 1 ↔ (value + 1) % 4 = 2 := by
    rw [jsFmod, hq, Rat.floor_intCast_div_natCast]
    constructor
    · intro h
      have h2 : ((value + 1 : Nat) : ℚ) - 4 * ((((value + 1 : Nat) : ℤ) / 4 : ℤ) : ℚ) = 2 := by
        push_cast at h ⊢
        linarith
      have h3 : ((value + 1 : Nat) : ℤ) - 4 * (((value + 1 : Nat) : ℤ) / 4) = 2 := by
        exact_mod_cast h2
      omega
    · intro h
      have h3 : ((value + 1 : Nat) : ℤ) - 4 * (((value + 1 : Nat) : ℤ) / 4) = 2 := by
        omega
      have h2 : ((value + 1 : Nat) : ℚ) - 4 * ((((value + 1 : Nat) : ℤ) / 4 : ℤ) : ℚ) = 2 := by
        exact_mod_cast h3
      push_cast at h2 ⊢
      linarith
  rw [Bool.eq_iff_iff]
  simp only [jsRLE4AbsolutePad, jsRLE4AbsolutePadQ, beq_iff_eq]
  exact hfrac.symm

theorem halftoneGray_eq_verbatim (i : Nat) :
    (halftoneGray i : Int) = halftoneGrayQ i := by
  have hq : (i : ℚ) * (255 / 19) + 1 / 2 = (((i * 255 * 2 + 19 : Nat) : ℤ) : ℚ) / ((38 : ℕ) : ℚ) := by
    push_cast
    ring
  rw [halftoneGrayQ, jsRound, hq, Rat.floor_intCast_div_natCast, halftoneGray]
  omega

/-! Claim C4.  RLE4 absolute-mode word alignment. -/

/-- C4 (code_bug): the claim states that after an absolute run of N pixels a
pad byte is consumed iff ceil(N/2) is odd, which is the word alignment the
code's own comment intends.  The code computes `(value + 1) / 2 % 2 === 1`
with JS float division, which at N = 6 yields 3.5 % 2 = 1.5, not 1: no pad
byte is consumed although ceil(6/2) = 3 is odd.  The theorem evaluates the
embedded condition at the failing input: the decoder skips the pad exactly
when `jsRLE4AbsolutePad` is true, yet the ceil test of the claim is odd. -/
theorem c4_rle4_pad_skipped_at_n6 :
    jsRLE4AbsolutePadQ 6 = false ∧ jsRLE4AbsolutePad 6 = false ∧ (6 + 1) / 2 % 2 = 1 ∧
      jsRLE4AbsolutePadQ 5 = true ∧ (5 + 1) / 2 % 2 = 1 := by
  refine ⟨by rw [← jsRLE4AbsolutePad_eq_verbatim]; decide, by decide, by decide,
    by rw [← jsRLE4AbsolutePad_eq_verbatim]; decide, by decide⟩

/-! Claim C8.  The 4-bit VGA palette byte order. -/

/-- C8 counterexample: the claim asserts that each entry's first stored byte
is the first component of the RGB triple as listed in the spec, e.g. 128
for the dark-red entry (index 1).  The palette stores BGR, so the first
byte of the dark-red slot is the blue component 0. -/
theorem c8_dark_red_first_byte_not_128 :
    ¬(generate4BitPalette.getD (1 * 4) 0 = 128) := by
  decide

/-- C8 amended: each of the 16 entries of the 4-bit palette is stored as the
4 bytes (blue, green, red, 0) of the corresponding RGB triple of the
spec's 16-color VGA list; in particular the first stored byte is the
blue (third) component, not the first. -/
theorem c8_vga_palette_bgr_layout (i : Nat) (hi : i < 16) :
    (generate4BitPalette.getD (i * 4) 0,
     generate4BitPalette.getD (i * 4 + 1) 0,
     generate4BitPalette.getD (i * 4 + 2) 0,
     generate4BitPalette.getD (i * 4 + 3) 0) =
      ((specVGAColorsRGB.getD i (0, 0, 0)).2.2,
       (specVGAColorsRGB.getD i (0, 0, 0)).2.1,
       (specVGAColorsRGB.getD i (0, 0, 0)).1, 0) := by
  interval_cases i <;> decide

/-- C8 witness: the dark-red entry (index 1) stores (0, 0, 128, 0). -/
theorem c8_vga_palette_witness :
    (generate4BitPalette.getD 4 0, generate4BitPalette.getD 5 0,
     generate4BitPalette.getD 6 0, generate4BitPalette.getD 7 0) = (0, 0, 128, 0) :=
  c8_vga_palette_bgr_layout 1 (by decide)

/-! Claim C3.  RLE8 concrete decode. -/

set_option maxRecDepth 10000 in
/-- C3 counterexample: decoding c3bmp does not produce the data the claim
asserts (the second run is claimed to continue row 0, but the 00 00
end-of-line escape that precedes it moves the run to row 1). -/
theorem c3_rle8_claimed_output_false :
    bmpToRgb c3bmp ≠
      .ok { width := 5, height := 2, channels := 3, data := c3claimedData } := by
  decide

set_option maxRecDepth 10000 in
/-- C3 amended: the decoder reads 03 41 as a run of three pixels of palette
index 0x41, then 00 00 as end-of-line, then 02 42 as a run of two pixels
of index 0x42 on the next row, then 00 01 as end-of-bitmap.  Row 0 of the
top-down output is therefore (10,20,30) x3 followed by palette 0 x2, and
row 1 is (40,50,60) x2 followed by palette 0 x3. -/
theorem c3_rle8_actual_output :
    bmpToRgb c3bmp =
      .ok { width := 5, height := 2, channels := 3, data := c3actualData } := by
  decide

/-! Claim C2.  captureScreen region validation vs native calls. -/

/-- C2 counterexample: with the claim's rectangle, captureScreen does fail
with the invalid-region error, but its native-call trace is not empty: the
unconditional getScreenRect() call at the top of captureScreen acquires
and releases a screen device context before the region check runs. -/
theorem c2_native_calls_before_invalid_region :
    (captureScreen scDefault envOk c2rect).2 =
      .error "Invalid capture area: width=0, height=5" ∧
    (captureScreen scDefault envOk c2rect).1 ≠ [] ∧
    NativeCall.getDCEx ∈ (captureScreen scDefault envOk c2rect).1 := by
  refine ⟨by decide, by decide, by decide⟩

/-- C2 amended: for every capture rectangle whose computed width or height is
non-positive, captureScreen fails with the invalid-region error before any
capture-path native call: the only native calls made are the screen-size
query of getScreenRect (device-context acquisition, two GetDeviceCaps
reads, device-context release), which captureScreen performs
unconditionally before validating the region. -/
theorem c2_invalid_region_after_screen_query (self : ScreenCapture) (env : NativeEnv)
    (rect : PartialRect) (hdc : env.screenDCOk = true)
    (hbad : rect.right.getD env.horzRes - rect.left.getD 0 ≤ 0 ∨
      rect.bottom.getD env.vertRes - rect.top.getD 0 ≤ 0) :
    captureScreen self env rect =
      ([NativeCall.getDCEx, NativeCall.getDeviceCaps 118, NativeCall.getDeviceCaps 117,
        NativeCall.releaseDC],
       .error ("Invalid capture area: width=" ++
         toString (rect.right.getD env.horzRes - rect.left.getD 0) ++
         ", height=" ++ toString (rect.bottom.getD env.vertRes - rect.top.getD 0))) := by
  rcases hbad with hb | hb <;>
    simp [captureScreen, getScreenRect, hdc, hb]

/-- C2 witness: the amended theorem applied at the claim's concrete
rectangle in a fully healthy native environment. -/
theorem c2_invalid_region_witness :
    envOk.screenDCOk = true ∧
    captureScreen scDefault envOk c2rect =
      ([NativeCall.getDCEx, NativeCall.getDeviceCaps 118, NativeCall.getDeviceCaps 117,
        NativeCall.releaseDC],
       .error ("Invalid capture area: width=" ++ toString ((-10 : Int) - (-10 : Int)) ++
         ", height=" ++ toString ((5 : Int) - 0))) :=
  ⟨rfl, c2_invalid_region_after_screen_query scDefault envOk c2rect rfl (by decide)⟩

/-! More helper lemmas: list and mapM utilities, header parsing. -/

theorem map_const_replicate (l : List α) (c : β) :
    l.map (fun _ => c) = List.replicate l.length c := by
  induction l with
  | nil => rfl
  | cons a t ih => simp [List.replicate_succ, ih]

theorem flatten_replicate_replicate (n m : Nat) :
    (List.replicate n (List.replicate m (0 : Nat))).flatten = List.replicate (n * m) 0 := by
  induction n with
  | zero => simp
  | succ k ih =>
    rw [List.replicate_succ, List.flatten_cons, ih, ← List.replicate_add]
    congr 1
    ring

theorem mapM_eq_ok_map (f : α → Except String β) (g : α → β) (l : List α)
    (h : ∀ a ∈ l, f a = .ok (g a)) : l.mapM f = .ok (l.map g) := by
  induction l with
  | nil => rfl
  | cons a t ih =>
    rw [List.mapM_cons, h a (by simp), List.map_cons, ih (fun x hx => h x (by simp [hx]))]
    rfl

theorem mapM_ok_of_forall (f : α → Except String β) (l : List α)
    (h : ∀ a ∈ l, ∃ b, f a = .ok b) : ∃ bs, l.mapM f = .ok bs ∧ bs.length = l.length := by
  induction l with
  | nil => exact ⟨[], rfl, rfl⟩
  | cons a t ih =>
    obtain ⟨b, hb⟩ := h a (by simp)
    obtain ⟨bs, hbs, hlenbs⟩ := ih (fun x hx => h x (by simp [hx]))
    refine ⟨b :: bs, ?_, by simp [hlenbs]⟩
    rw [List.mapM_cons, hb, hbs]
    rfl

theorem peekI32_ofNat (b : Bytes) (i : Nat) (h : peekU32 b i < 2 ^ 31) :
    peekI32 b i = (peekU32 b i : Int) := by
  rw [peekI32, if_pos h]

theorem bmpToRgb_parse (bmp : Bytes) (hlen : 50 ≤ bmp.length)
    (hsig0 : bmp.getD 0 0 = 0x42) (hsig1 : bmp.getD 1 0 = 0x4D) :
    bmpToRgb bmp = bmpDecode bmp (peekU32 bmp 10) (peekU32 bmp 14)
      (peekI32 bmp 18) (peekI32 bmp 22) (peekU16 bmp 28) (peekU32 bmp 30)
      (peekU32 bmp 46) := by
  rw [bmpToRgb, getU8_ok bmp 0 (by omega), getU8_ok bmp 1 (by omega),
    getU32_ok bmp 10 (by omega), getU32_ok bmp 14 (by omega),
    getI32_ok bmp 18 (by omega), getI32_ok bmp 22 (by omega),
    getU16_ok bmp 28 (by omega), getU32_ok bmp 30 (by omega), getU32_ok bmp 46 (by omega),
    hsig0, hsig1]
  rfl

theorem readPalette_getD (bmp : Bytes) (colorsUsed i : Nat) (hi : i < colorsUsed) :
    (readPalette bmp colorsUsed).getD i [] =
      (if 14 + 40 + i * 4 + 3 < bmp.length then
        [bmp.getD (14 + 40 + i * 4 + 2) 0, bmp.getD (14 + 40 + i * 4 + 1) 0,
         bmp.getD (14 + 40 + i * 4) 0]
      else [0, 0, 0]) := by
  rw [readPalette, List.getD_eq_getElem?_getD, List.getElem?_map, List.getElem?_range hi]
  rfl

/-! Claim C9.  Out-of-bounds palette entries read as black. -/

/-- C9: readPalette is total: it always returns exactly colorsUsed entries,
reading an entry's bytes only under the bounds guard; every entry whose
4 bytes are not fully contained in the input is (0,0,0), and every fully
contained entry is read as (red, green, blue) from its BGRA quad.  The
decoder branches proceed with this substituted palette, so a palette
extending past the end of the buffer never raises an error by itself. -/
theorem c9_palette_out_of_bounds_black (bmp : Bytes) (colorsUsed i : Nat)
    (hi : i < colorsUsed) :
    (readPalette bmp colorsUsed).length = colorsUsed ∧
    (¬(14 + 40 + i * 4 + 3 < bmp.length) →
      (readPalette bmp colorsUsed).getD i [] = [0, 0, 0]) ∧
    (14 + 40 + i * 4 + 3 < bmp.length →
      (readPalette bmp colorsUsed).getD i [] =
        [bmp.getD (14 + 40 + i * 4 + 2) 0, bmp.getD (14 + 40 + i * 4 + 1) 0,
         bmp.getD (14 + 40 + i * 4) 0]) := by
  refine ⟨by simp [readPalette], ?_, ?_⟩
  · intro h
    rw [readPalette_getD bmp colorsUsed i hi, if_neg h]
  · intro h
    rw [readPalette_getD bmp colorsUsed i hi, if_pos h]

/-- C9 witness: a 55-byte buffer with a declared 2-entry palette; entry 1
(bytes 58..61) extends past the end and is read as black. -/
theorem c9_palette_witness :
    (1 < 2) ∧
    (readPalette (List.replicate 55 7) 2).length = 2 ∧
    (readPalette (List.replicate 55 7) 2).getD 1 [] = [0, 0, 0] := by
  obtain ⟨hlen, hblack, _⟩ := c9_palette_out_of_bounds_black (List.replicate 55 7) 2 1 (by decide)
  exact ⟨by decide, hlen, hblack (by decide)⟩

/-! Claim C10.  Uncompressed inputs with an unsupported bit depth. -/

theorem uncompressedPixel_unsupported (dataView : Bytes) (palette : List Bytes)
    (channels srcRowOffset x : Nat) (bd : Nat) (h : bd ∉ supportedBitDepths) :
    uncompressedPixel dataView bd palette channels srcRowOffset x =
      .ok (pixelChunk channels 0 0 0 255) := by
  rw [uncompressedPixel.eq_def]
  split <;> first
    | rfl
    | (exfalso; simp [supportedBitDepths] at h)

theorem processUncompressed_unsupported (bmp : Bytes) (w h bd off cu : Nat) (itd : Bool)
    (hbd : bd ∉ supportedBitDepths) :
    processUncompressedBitmap bmp w h bd off cu itd 3 =
      .ok (List.replicate (h * (w * 3)) 0) := by
  rw [processUncompressedBitmap]
  have hrow : ∀ so : Nat, uncompressedRow bmp bd (readPalette bmp cu) w 3 so =
      .ok (List.replicate (w * 3) 0) := by
    intro so
    rw [uncompressedRow, mapM_eq_ok_map _ (fun _ => pixelChunk 3 0 0 0 255) _
      (fun a _ => uncompressedPixel_unsupported bmp (readPalette bmp cu) 3 so a bd hbd)]
    have hc : (List.range w).map (fun _ => pixelChunk 3 0 0 0 255) =
        List.replicate w (List.replicate 3 0) := by
      rw [map_const_replicate, List.length_range]
      rfl
    rw [hc]
    show Except.ok (List.replicate w (List.replicate 3 0)).flatten = _
    rw [flatten_replicate_replicate]
  rw [mapM_eq_ok_map _ (fun _ => List.replicate (w * 3) 0) _ (fun y _ => hrow _)]
  have hc : (List.range h).map (fun _ => List.replicate (w * 3) 0) =
      List.replicate h (List.replicate (w * 3) 0) := by
    rw [map_const_replicate, List.length_range]
  rw [hc]
  show Except.ok (List.replicate h (List.replicate (w * 3) 0)).flatten = _
  rw [flatten_replicate_replicate]

/-- C10: every input that parses as compression 0 with a bit-depth field
outside the supported set is not rejected: the per-pixel switch has no
matching case, so the default components (0,0,0) fill the whole output,
which has 3 channels and length width x height x 3. -/
theorem c10_unknown_depth_zero_pixels (bmp : Bytes) (hlen : 50 ≤ bmp.length)
    (hsig0 : bmp.getD 0 0 = 0x42) (hsig1 : bmp.getD 1 0 = 0x4D)
    (hcomp : peekU32 bmp 30 = 0)
    (hdepth : peekU16 bmp 28 ∉ supportedBitDepths)
    (hw : peekU32 bmp 18 < 2 ^ 31) :
    bmpToRgb bmp =
      .ok { width := (peekU32 bmp 18 : Int),
            height := ((peekI32 bmp 22).natAbs : Int),
            channels := 3,
            data := List.replicate (peekU32 bmp 18 * (peekI32 bmp 22).natAbs * 3) 0 } := by
  have h32 : peekU16 bmp 28 ≠ 32 := fun hc => hdepth (by rw [hc]; decide)
  rw [bmpToRgb_parse bmp hlen hsig0 hsig1, hcomp, peekI32_ofNat bmp 18 hw, bmpDecode]
  simp only [h32, if_false, ite_false, reduceIte]
  rw [if_neg (by exact not_lt.mpr (Int.natCast_nonneg _))]
  rw [Int.toNat_natCast]
  rw [processUncompressed_unsupported bmp (peekU32 bmp 18) (peekI32 bmp 22).natAbs
    (peekU16 bmp 28) (peekU32 bmp 10)
    (if peekU32 bmp 46 = 0 ∧ peekU16 bmp 28 ≤ 8 then 1 <<< peekU16 bmp 28 else peekU32 bmp 46)
    (decide (peekI32 bmp 22 < 0)) hdepth]
  have harith : (peekI32 bmp 22).natAbs * (peekU32 bmp 18 * 3) =
      peekU32 bmp 18 * (peekI32 bmp 22).natAbs * 3 := by ring
  simp [harith]

/-- C10 witness: the 50-byte input with bit depth 2 decodes to a single
black pixel with 3 channels. -/
theorem c10_unknown_depth_witness :
    (50 ≤ c10bmp.length ∧ peekU32 c10bmp 30 = 0 ∧ peekU16 c10bmp 28 = 2 ∧
      peekU16 c10bmp 28 ∉ supportedBitDepths) ∧
    bmpToRgb c10bmp =
      .ok { width := (peekU32 c10bmp 18 : Int),
            height := ((peekI32 c10bmp 22).natAbs : Int),
            channels := 3,
            data := List.replicate (peekU32 c10bmp 18 * (peekI32 c10bmp 22).natAbs * 3) 0 } :=
  ⟨⟨by decide, by decide, by decide, by decide⟩,
   c10_unknown_depth_zero_pixels c10bmp (by decide) (by decide) (by decide) (by decide)
     (by decide) (by decide)⟩

/-! Claim C6.  The 8-bit halftone palette. -/

theorem specRound_eq_natDiv (a b : Nat) (hb : 0 < b) :
    specRound a b = (2 * a + b) / (2 * b) := by
  have hq : (a : ℚ) / (b : ℚ) + 1 / 2 = (((2 * a + b : Nat) : ℤ) : ℚ) / ((2 * b : ℕ) : ℚ) := by
    have hb0 : ((b : ℚ)) ≠ 0 := by
      exact_mod_cast Nat.pos_iff_ne_zero.mp hb
    field_simp
    push_cast
    ring
  rw [specRound, hq, Rat.floor_intCast_div_natCast]
  rw [show ((2 * a + b : Nat) : ℤ) / ((2 * b : ℕ) : ℤ) = (((2 * a + b) / (2 * b) : Nat) : ℤ) from
    (Int.ofNat_div _ _).symm]
  exact Int.toNat_natCast _

theorem flatten_map_length (f : α → List β) (l : List α) (L : Nat)
    (hL : ∀ a ∈ l, (f a).length = L) : ((l.map f).flatten).length = l.length * L := by
  induction l with
  | nil => simp
  | cons a t ih =>
    simp only [List.map_cons, List.flatten_cons, List.length_append, List.length_cons]
    rw [hL a (by simp), ih (fun x hx => hL x (by simp [hx]))]
    ring

theorem flatten_map_getD (f : α → List β) (l : List α) (L : Nat)
    (hL : ∀ a ∈ l, (f a).length = L) (i k : Nat) (hi : i < l.length) (hk : k < L)
    (d : α) (db : β) :
    ((l.map f).flatten).getD (i * L + k) db = (f (l.getD i d)).getD k db := by
  induction l generalizing i with
  | nil => simp at hi
  | cons a t ih =>
    cases i with
    | zero =>
      simp only [List.map_cons, List.flatten_cons, Nat.zero_mul, Nat.zero_add]
      rw [List.getD_append _ _ _ _ (by rw [hL a (by simp)]; exact hk)]
      rfl
    | succ n =>
      simp only [List.map_cons, List.flatten_cons]
      have hmul : (n + 1) * L = n * L + L := by ring
      rw [List.getD_append_right _ _ _ _ (by rw [hL a (by simp)]; omega)]
      rw [hL a (by simp)]
      have harith : (n + 1) * L + k - L = n * L + k := by omega
      rw [harith]
      have hlen : n < t.length := by simpa using hi
      rw [ih (fun x hx => hL x (by simp [hx])) n hlen]
      rfl

theorem range_getD (n i : Nat) (hi : i < n) : (List.range n).getD i 0 = i := by
  rw [List.getD_eq_getElem?_getD, List.getElem?_range hi]
  rfl

theorem halftone_standard_length :
    ((halftoneStandardColors.map (fun c => [c.getD 2 0, c.getD 1 0, c.getD 0 0, 0])).flatten).length = 80 := by
  rw [flatten_map_length (fun c => [c.getD 2 0, c.getD 1 0, c.getD 0 0, 0])
    halftoneStandardColors 4 (fun a _ => rfl)]
  rfl

theorem halftone_cube_inner_length (r0 g0 : Nat) :
    (((List.range 6).map (fun b0 => [b0 * 51, g0 * 51, r0 * 51, 0])).flatten).length = 24 := by
  rw [flatten_map_length (fun b0 => [b0 * 51, g0 * 51, r0 * 51, 0]) (List.range 6) 4
    (fun a _ => rfl)]
  rfl

theorem halftone_cube_mid_length (r0 : Nat) :
    (((List.range 6).map (fun g0 =>
        ((List.range 6).map (fun b0 => [b0 * 51, g0 * 51, r0 * 51, 0])).flatten)).flatten).length = 144 := by
  rw [flatten_map_length (fun g0 =>
      ((List.range 6).map (fun b0 => [b0 * 51, g0 * 51, r0 * 51, 0])).flatten) (List.range 6) 24
    (fun a _ => halftone_cube_inner_length r0 a)]
  rfl

theorem halftone_cube_length :
    (((List.range 6).map (fun r0 =>
        ((List.range 6).map (fun g0 =>
            ((List.range 6).map (fun b0 => [b0 * 51, g0 * 51, r0 * 51, 0])).flatten)).flatten)).flatten).length = 864 := by
  rw [flatten_map_length (fun r0 =>
      ((List.range 6).map (fun g0 =>
          ((List.range 6).map (fun b0 => [b0 * 51, g0 * 51, r0 * 51, 0])).flatten)).flatten)
    (List.range 6) 144 (fun a _ => halftone_cube_mid_length a)]
  rfl

theorem halftone_gray_length :
    (((List.range 20).map (fun i =>
        [halftoneGray i, halftoneGray i, halftoneGray i, 0])).flatten).length = 80 := by
  rw [flatten_map_length (fun i => [halftoneGray i, halftoneGray i, halftoneGray i, 0])
    (List.range 20) 4 (fun a _ => rfl)]
  rfl

theorem halftone_cube_getD (r g b k : Nat) (hr : r < 6) (hg : g < 6) (hb : b < 6) (hk : k < 4) :
    generate8BitHalftonePalette.getD ((20 + 36 * r + 6 * g + b) * 4 + k) 0 =
      [b * 51, g * 51, r * 51, 0].getD k 0 := by
  rw [generate8BitHalftonePalette]
  rw [List.getD_append _ _ _ _ (by
    simp only [List.length_append, halftone_standard_length, halftone_cube_length]
    omega)]
  rw [List.getD_append_right _ _ _ _ (by rw [halftone_standard_length]; omega)]
  rw [halftone_standard_length]
  rw [show (20 + 36 * r + 6 * g + b) * 4 + k - 80 = r * 144 + (g * 24 + (b * 4 + k)) from by omega]
  rw [flatten_map_getD (fun r0 =>
      ((List.range 6).map (fun g0 =>
          ((List.range 6).map (fun b0 => [b0 * 51, g0 * 51, r0 * 51, 0])).flatten)).flatten)
    (List.range 6) 144 (fun a _ => halftone_cube_mid_length a)
    r (g * 24 + (b * 4 + k)) (by simpa using hr) (by omega) 0 0]
  rw [range_getD 6 r hr]
  rw [flatten_map_getD (fun g0 =>
      ((List.range 6).map (fun b0 => [b0 * 51, g0 * 51, r * 51, 0])).flatten)
    (List.range 6) 24 (fun a _ => halftone_cube_inner_length r a)
    g (b * 4 + k) (by simpa using hg) (by omega) 0 0]
  rw [range_getD 6 g hg]
  rw [flatten_map_getD (fun b0 => [b0 * 51, g * 51, r * 51, 0]) (List.range 6) 4
    (fun a _ => rfl) b k (by simpa using hb) hk 0 0]
  rw [range_getD 6 b hb]

theorem halftone_gray_getD (i k : Nat) (hi : i < 20) (hk : k < 4) :
    generate8BitHalftonePalette.getD ((236 + i) * 4 + k) 0 =
      [halftoneGray i, halftoneGray i, halftoneGray i, 0].getD k 0 := by
  rw [generate8BitHalftonePalette]
  rw [List.getD_append_right _ _ _ _ (by
    simp only [List.length_append, halftone_standard_length, halftone_cube_length]
    omega)]
  simp only [List.length_append, halftone_standard_length, halftone_cube_length]
  rw [show (236 + i) * 4 + k - (80 + 864) = i * 4 + k from by omega]
  rw [flatten_map_getD (fun i0 => [halftoneGray i0, halftoneGray i0, halftoneGray i0, 0])
    (List.range 20) 4 (fun a _ => rfl) i k (by simpa using hi) hk 0 0]
  rw [range_getD 20 i hi]

theorem halftone_standard_getD (i k : Nat) (hi : i < 20) (hk : k < 4) :
    generate8BitHalftonePalette.getD (i * 4 + k) 0 =
      [(halftoneStandardColors.getD i []).getD 2 0, (halftoneStandardColors.getD i []).getD 1 0,
       (halftoneStandardColors.getD i []).getD 0 0, 0].getD k 0 := by
  rw [generate8BitHalftonePalette]
  rw [List.getD_append _ _ _ _ (by
    simp only [List.length_append, halftone_standard_length, halftone_cube_length]
    omega)]
  rw [List.getD_append _ _ _ _ (by rw [halftone_standard_length]; omega)]
  rw [flatten_map_getD (fun c => [c.getD 2 0, c.getD 1 0, c.getD 0 0, 0])
    halftoneStandardColors 4 (fun a _ => rfl) i k (by simpa [halftoneStandardColors] using hi) hk [] 0]

/-- C6: the halftone palette stores, at entry 20 + 36r + 6g + b of the 6x6x6
cube, the color (r x 51, g x 51, b x 51) in BGRA byte order; entries
236..255 are the gray ramp round(i x 255 / 19) repeated over B, G, R; and
the fourth (reserved) byte of every one of the 256 entries is 0. -/
theorem c6_halftone_palette :
    (∀ r : Nat, r < 6 → ∀ g : Nat, g < 6 → ∀ b : Nat, b < 6 →
      (generate8BitHalftonePalette.getD ((20 + 36 * r + 6 * g + b) * 4) 0,
       generate8BitHalftonePalette.getD ((20 + 36 * r + 6 * g + b) * 4 + 1) 0,
       generate8BitHalftonePalette.getD ((20 + 36 * r + 6 * g + b) * 4 + 2) 0,
       generate8BitHalftonePalette.getD ((20 + 36 * r + 6 * g + b) * 4 + 3) 0) =
        (b * 51, g * 51, r * 51, 0)) ∧
    (∀ i : Nat, i < 20 →
      (generate8BitHalftonePalette.getD ((236 + i) * 4) 0,
       generate8BitHalftonePalette.getD ((236 + i) * 4 + 1) 0,
       generate8BitHalftonePalette.getD ((236 + i) * 4 + 2) 0,
       generate8BitHalftonePalette.getD ((236 + i) * 4 + 3) 0) =
        (specRound (i * 255) 19, specRound (i * 255) 19, specRound (i * 255) 19, 0)) ∧
    (∀ j : Nat, j < 256 → generate8BitHalftonePalette.getD (4 * j + 3) 0 = 0) := by
  refine ⟨?_, ?_, ?_⟩
  · intro r hr g hg b hb
    have e0 := halftone_cube_getD r g b 0 hr hg hb (by omega)
    rw [Nat.add_zero] at e0
    rw [e0, halftone_cube_getD r g b 1 hr hg hb (by omega),
      halftone_cube_getD r g b 2 hr hg hb (by omega),
      halftone_cube_getD r g b 3 hr hg hb (by omega)]
    rfl
  · intro i hi
    rw [specRound_eq_natDiv (i * 255) 19 (by norm_num)]
    have e0 := halftone_gray_getD i 0 hi (by omega)
    rw [Nat.add_zero] at e0
    rw [e0, halftone_gray_getD i 1 hi (by omega), halftone_gray_getD i 2 hi (by omega),
      halftone_gray_getD i 3 hi (by omega)]
    have hsame : halftoneGray i = (2 * (i * 255) + 19) / (2 * 19) := by
      rw [halftoneGray]
      omega
    simp [hsame]
  · intro j hj
    by_cases h20 : j < 20
    · rw [show 4 * j + 3 = j * 4 + 3 from by omega,
        halftone_standard_getD j 3 h20 (by omega)]
      rfl
    · by_cases h236 : j < 236
      · have hr : (j - 20) / 36 < 6 := by omega
        have hg : (j - 20) % 36 / 6 < 6 := by omega
        have hb : (j - 20) % 6 < 6 := by omega
        rw [show 4 * j + 3 =
            (20 + 36 * ((j - 20) / 36) + 6 * ((j - 20) % 36 / 6) + (j - 20) % 6) * 4 + 3 from
          by omega]
        rw [halftone_cube_getD _ _ _ 3 hr hg hb (by omega)]
        rfl
      · have hi : j - 236 < 20 := by omega
        rw [show 4 * j + 3 = (236 + (j - 236)) * 4 + 3 from by omega]
        rw [halftone_gray_getD (j - 236) 3 hi (by omega)]
        rfl

/-- C6 witness: the theorem applied at cube entry (r,g,b) = (1,2,3)
(palette index 20 + 36 + 12 + 3 = 71) and gray entry i = 7. -/
theorem c6_halftone_witness :
    (generate8BitHalftonePalette.getD ((20 + 36 * 1 + 6 * 2 + 3) * 4) 0,
     generate8BitHalftonePalette.getD ((20 + 36 * 1 + 6 * 2 + 3) * 4 + 1) 0,
     generate8BitHalftonePalette.getD ((20 + 36 * 1 + 6 * 2 + 3) * 4 + 2) 0,
     generate8BitHalftonePalette.getD ((20 + 36 * 1 + 6 * 2 + 3) * 4 + 3) 0) =
      (3 * 51, 2 * 51, 1 * 51, 0) ∧
    (generate8BitHalftonePalette.getD ((236 + 7) * 4) 0,
     generate8BitHalftonePalette.getD ((236 + 7) * 4 + 1) 0,
     generate8BitHalftonePalette.getD ((236 + 7) * 4 + 2) 0,
     generate8BitHalftonePalette.getD ((236 + 7) * 4 + 3) 0) =
      (specRound (7 * 255) 19, specRound (7 * 255) 19, specRound (7 * 255) 19, 0) :=
  ⟨c6_halftone_palette.1 1 (by omega) 2 (by omega) 3 (by omega),
   c6_halftone_palette.2.1 7 (by omega)⟩

/-! Helper lemmas for the assembled BMP buffer, and claim C5. -/

theorem u32LE_length (v : Nat) : (u32LE v).length = 4 := rfl

theorem u16LE_length (v : Nat) : (u16LE v).length = 2 := rfl

theorem bmpFileHeader_length (fs off : Nat) : (bmpFileHeader fs off).length = 14 := rfl

theorem bmpInfoHeader_length (w h d ps nc : Nat) : (bmpInfoHeader w h d ps nc).length = 40 := rfl

theorem getNumColors_le (d : Nat) : getNumColorsForBitDepth d ≤ 256 := by
  rw [getNumColorsForBitDepth.eq_def]
  split <;> omega

theorem palette_length (d : Nat) (pt : PaletteType) :
    (getPaletteForBitDepth d pt).length = getNumColorsForBitDepth d * 4 := by
  rw [getPaletteForBitDepth.eq_def, getNumColorsForBitDepth.eq_def]
  split
  · rfl
  · rfl
  · cases pt
    · rw [if_pos rfl]
      rw [generate8BitGrayscalePalette,
        flatten_map_length (fun i => [i, i, i, 0]) (List.range 256) 4 (fun a _ => rfl),
        List.length_range]
    · rw [if_neg (by intro hcon; cases hcon)]
      rw [generate8BitHalftonePalette]
      simp only [List.length_append, halftone_standard_length, halftone_cube_length,
        halftone_gray_length]
  · rfl

theorem capturedBmp_eq (d : Nat) (pt : PaletteType) (w h : Nat) (px : Bytes) :
    capturedBmp d pt w h px =
      bmpFileHeader (14 + 40 + getNumColorsForBitDepth d * 4 + bmpStride d w * h)
          (14 + 40 + getNumColorsForBitDepth d * 4) ++
        bmpInfoHeader w h d (bmpStride d w * h) (getNumColorsForBitDepth d) ++
        getPaletteForBitDepth d pt ++ px := by
  rw [capturedBmp, createBitmapBuffersBmp, createBitmapBuffersOffset]
  have hlen : (bmpFileHeader (14 + 40 + getNumColorsForBitDepth d * 4 + bmpStride d w * h)
        (14 + 40 + getNumColorsForBitDepth d * 4) ++
      bmpInfoHeader w h d (bmpStride d w * h) (getNumColorsForBitDepth d) ++
      getPaletteForBitDepth d pt).length = 14 + 40 + getNumColorsForBitDepth d * 4 := by
    simp only [List.length_append, bmpFileHeader_length, bmpInfoHeader_length, palette_length]
  nth_rewrite 1 [← hlen]
  rw [List.take_left]

theorem peekU32_front (l rest : Bytes) (i : Nat) (h : i + 3 < l.length) :
    peekU32 (l ++ rest) i = peekU32 l i := by
  simp only [peekU32]
  rw [List.getD_append _ _ _ _ (by omega), List.getD_append _ _ _ _ (by omega),
    List.getD_append _ _ _ _ (by omega), List.getD_append _ _ _ _ (by omega)]

theorem peekU32_skip (l rest : Bytes) (i : Nat) (h : l.length ≤ i) :
    peekU32 (l ++ rest) i = peekU32 rest (i - l.length) := by
  simp only [peekU32]
  rw [List.getD_append_right _ _ _ _ (by omega), List.getD_append_right _ _ _ _ (by omega),
    List.getD_append_right _ _ _ _ (by omega), List.getD_append_right _ _ _ _ (by omega)]
  rw [show i + 1 - l.length = i - l.length + 1 from by omega,
    show i + 2 - l.length = i - l.length + 2 from by omega,
    show i + 3 - l.length = i - l.length + 3 from by omega]

theorem peekU16_front (l rest : Bytes) (i : Nat) (h : i + 1 < l.length) :
    peekU16 (l ++ rest) i = peekU16 l i := by
  simp only [peekU16]
  rw [List.getD_append _ _ _ _ (by omega), List.getD_append _ _ _ _ (by omega)]

theorem peekU16_skip (l rest : Bytes) (i : Nat) (h : l.length ≤ i) :
    peekU16 (l ++ rest) i = peekU16 rest (i - l.length) := by
  simp only [peekU16]
  rw [List.getD_append_right _ _ _ _ (by omega), List.getD_append_right _ _ _ _ (by omega)]
  rw [show i + 1 - l.length = i - l.length + 1 from by omega]

theorem peekU32_u32LE (v : Nat) : peekU32 (u32LE v) 0 = v % 2 ^ 32 := by
  simp [peekU32, u32LE]
  omega

theorem peekU32_u32LE_append (v : Nat) (rest : Bytes) :
    peekU32 (u32LE v ++ rest) 0 = v % 2 ^ 32 := by
  rw [peekU32_front _ _ 0 (by simp [u32LE]), peekU32_u32LE]

theorem peekU16_u16LE_append (v : Nat) (rest : Bytes) :
    peekU16 (u16LE v ++ rest) 0 = v % 2 ^ 16 := by
  rw [peekU16_front _ _ 0 (by simp [u16LE]), peekU16]
  simp [u16LE]
  omega

theorem peekU32_skip_pair (a b : Nat) (rest : Bytes) (i : Nat) (h : 2 ≤ i) :
    peekU32 ([a, b] ++ rest) i = peekU32 rest (i - 2) := by
  rw [peekU32_skip _ _ _ (by simp; omega)]
  rfl

theorem peekU32_skip_u32 (v : Nat) (rest : Bytes) (i : Nat) (h : 4 ≤ i) :
    peekU32 (u32LE v ++ rest) i = peekU32 rest (i - 4) := by
  rw [peekU32_skip _ _ _ (by simp [u32LE]; omega)]
  rfl

theorem peekU32_skip_u16 (v : Nat) (rest : Bytes) (i : Nat) (h : 2 ≤ i) :
    peekU32 (u16LE v ++ rest) i = peekU32 rest (i - 2) := by
  rw [peekU32_skip _ _ _ (by simp [u16LE]; omega)]
  rfl

theorem peekU16_skip_pair (a b : Nat) (rest : Bytes) (i : Nat) (h : 2 ≤ i) :
    peekU16 ([a, b] ++ rest) i = peekU16 rest (i - 2) := by
  rw [peekU16_skip _ _ _ (by simp; omega)]
  rfl

theorem peekU16_skip_u32 (v : Nat) (rest : Bytes) (i : Nat) (h : 4 ≤ i) :
    peekU16 (u32LE v ++ rest) i = peekU16 rest (i - 4) := by
  rw [peekU16_skip _ _ _ (by simp [u32LE]; omega)]
  rfl

theorem peekU16_skip_u16 (v : Nat) (rest : Bytes) (i : Nat) (h : 2 ≤ i) :
    peekU16 (u16LE v ++ rest) i = peekU16 rest (i - 2) := by
  rw [peekU16_skip _ _ _ (by simp [u16LE]; omega)]
  rfl

theorem capturedBmp_fields (d : Nat) (pt : PaletteType) (w h : Nat) (px : Bytes) :
    peekU32 (capturedBmp d pt w h px) 2 =
      (14 + 40 + getNumColorsForBitDepth d * 4 + bmpStride d w * h) % 2 ^ 32 ∧
    peekU32 (capturedBmp d pt w h px) 10 = (14 + 40 + getNumColorsForBitDepth d * 4) % 2 ^ 32 ∧
    peekU32 (capturedBmp d pt w h px) 14 = 40 ∧
    peekU32 (capturedBmp d pt w h px) 18 = w % 2 ^ 32 ∧
    peekU32 (capturedBmp d pt w h px) 22 = h % 2 ^ 32 ∧
    peekU16 (capturedBmp d pt w h px) 28 = d % 2 ^ 16 ∧
    peekU32 (capturedBmp d pt w h px) 30 = 0 ∧
    peekU32 (capturedBmp d pt w h px) 46 = getNumColorsForBitDepth d % 2 ^ 32 := by
  refine ⟨?_, ?_, ?_, ?_, ?_, ?_, ?_, ?_⟩ <;>
    (rw [capturedBmp_eq, bmpFileHeader, bmpInfoHeader]
     simp only [List.append_assoc]
     simp only [peekU32_skip_pair, peekU32_skip_u32, peekU32_skip_u16, peekU16_skip_pair,
       peekU16_skip_u32, peekU16_skip_u16, Nat.reduceSub, Nat.reduceLeDiff,
       peekU32_u32LE_append, peekU16_u16LE_append])
  all_goals norm_num

theorem capturedBmp_length (d : Nat) (pt : PaletteType) (w h : Nat) (px : Bytes)
    (hpx : px.length = bmpStride d w * h) :
    (capturedBmp d pt w h px).length =
      14 + 40 + getNumColorsForBitDepth d * 4 + bmpStride d w * h := by
  rw [capturedBmp_eq]
  simp only [List.length_append, bmpFileHeader_length, bmpInfoHeader_length, palette_length, hpx]

/-- C5: for every BMP assembled by createBitmapBuffers (with the pixel
region in any filled state of the correct length), the pixel-offset field
at byte 10 is 14 + 40 + numColors x 4 with numColors = 2/16/256 for depth
1/4/8 and 0 otherwise, the stride is floor((bitDepth x width + 31)/32) x 4,
and the file-size field at byte 2 and the buffer length both equal
pixelOffset + stride x height. -/
theorem c5_header_pixel_consistency (d : Nat) (pt : PaletteType) (w h : Nat) (px : Bytes)
    (hd : d ∈ supportedBitDepths) (hw : 0 < w) (hh : 0 < h)
    (hpx : px.length = bmpStride d w * h)
    (hfit : 14 + 40 + getNumColorsForBitDepth d * 4 + bmpStride d w * h < 2 ^ 32) :
    peekU32 (capturedBmp d pt w h px) 10 = 14 + 40 + getNumColorsForBitDepth d * 4 ∧
    getNumColorsForBitDepth d =
      (if d = 1 then 2 else if d = 4 then 16 else if d = 8 then 256 else 0) ∧
    bmpStride d w = (d * w + 31) / 32 * 4 ∧
    peekU32 (capturedBmp d pt w h px) 2 =
      14 + 40 + getNumColorsForBitDepth d * 4 + bmpStride d w * h ∧
    (capturedBmp d pt w h px).length =
      14 + 40 + getNumColorsForBitDepth d * 4 + bmpStride d w * h := by
  obtain ⟨h2, h10, _, _, _, _, _, _⟩ := capturedBmp_fields d pt w h px
  have hnc := getNumColors_le d
  refine ⟨?_, ?_, rfl, ?_, capturedBmp_length d pt w h px hpx⟩
  · rw [h10]
    omega
  · rw [getNumColorsForBitDepth.eq_def]
    split <;> simp_all
  · rw [h2]
    omega

/-- C5 witness: bit depth 8 (halftone), width 3, height 2: pixel offset
1078, file size field and total length 1086 = 1078 + 4 x 2. -/
theorem c5_header_witness :
    peekU32 (capturedBmp 8 PaletteType.halftone 3 2 (List.replicate 8 0)) 10 = 1078 ∧
    bmpStride 8 3 = 4 ∧
    peekU32 (capturedBmp 8 PaletteType.halftone 3 2 (List.replicate 8 0)) 2 = 1086 ∧
    (capturedBmp 8 PaletteType.halftone 3 2 (List.replicate 8 0)).length = 1086 := by
  obtain ⟨ha, _, _, hb, hc⟩ := c5_header_pixel_consistency 8 PaletteType.halftone 3 2
    (List.replicate 8 0) (by decide) (by decide) (by decide) (by decide) (by decide)
  exact ⟨ha, rfl, hb, hc⟩

/-! Claim C1.  Round-trip: emitted BMPs decode. -/

theorem readPalette_length (b : Bytes) (cu : Nat) : (readPalette b cu).length = cu := by
  simp [readPalette]

theorem paletteGet_ok (palette : List Bytes) (i : Nat) (h : i < palette.length) :
    paletteGet palette i = .ok (palette.getD i []) := by
  rw [paletteGet, if_pos h]

theorem getD_lt_of_forall (l : Bytes) (i : Nat) (h : ∀ v ∈ l, v < 256) :
    l.getD i 0 < 256 := by
  by_cases hi : i < l.length
  · rw [List.getD_eq_getElem l 0 hi]
    exact h _ (List.getElem_mem hi)
  · rw [List.getD_eq_default l 0 (by omega)]
    omega

theorem capturedBmp_getD_px (d : Nat) (pt : PaletteType) (w h : Nat) (px : Bytes) (t : Nat) :
    (capturedBmp d pt w h px).getD (14 + 40 + getNumColorsForBitDepth d * 4 + t) 0 =
      px.getD t 0 := by
  rw [capturedBmp_eq]
  rw [List.getD_append_right _ _ _ _ (by
    simp only [List.length_append, bmpFileHeader_length, bmpInfoHeader_length, palette_length]
    omega)]
  congr 1
  simp only [List.length_append, bmpFileHeader_length, bmpInfoHeader_length, palette_length]
  omega

theorem rowOffset_bound (S srcY h t : Nat) (hsy : srcY < h) (ht : t < S) :
    srcY * S + t < h * S := by
  have h1 : (srcY + 1) * S ≤ h * S := Nat.mul_le_mul_right S (by omega)
  have h2 : (srcY + 1) * S = srcY * S + S := by ring
  omega

theorem emitted_read_bound (d : Nat) (pt : PaletteType) (w h : Nat) (px : Bytes)
    (hpx : px.length = bmpStride d w * h) (srcY t : Nat) (hsy : srcY < h)
    (ht : t < bmpStride d w) :
    14 + 40 + getNumColorsForBitDepth d * 4 + srcY * bmpStride d w + t <
      (capturedBmp d pt w h px).length := by
  rw [capturedBmp_length d pt w h px hpx]
  have h1 := rowOffset_bound (bmpStride d w) srcY h t hsy ht
  have h2 : h * bmpStride d w = bmpStride d w * h := Nat.mul_comm _ _
  omega

theorem capturedBmp_getD_px2 (d : Nat) (pt : PaletteType) (w h : Nat) (px : Bytes)
    (t1 t2 : Nat) :
    (capturedBmp d pt w h px).getD (14 + 40 + getNumColorsForBitDepth d * 4 + t1 + t2) 0 =
      px.getD (t1 + t2) 0 := by
  rw [show 14 + 40 + getNumColorsForBitDepth d * 4 + t1 + t2 =
      14 + 40 + getNumColorsForBitDepth d * 4 + (t1 + t2) from by omega]
  exact capturedBmp_getD_px d pt w h px (t1 + t2)

theorem exceptBind_ok (a : α) (f : α → Except String β) :
    (Except.ok a >>= f : Except String β) = f a := rfl

theorem getU8_emitted (d : Nat) (pt : PaletteType) (w h : Nat) (px : Bytes)
    (hpx : px.length = bmpStride d w * h) (srcY t : Nat) (hsy : srcY < h)
    (ht : t < bmpStride d w) :
    getU8 (capturedBmp d pt w h px)
      (14 + 40 + getNumColorsForBitDepth d * 4 + srcY * bmpStride d w + t) =
      .ok (px.getD (srcY * bmpStride d w + t) 0) := by
  rw [getU8_ok _ _ (emitted_read_bound d pt w h px hpx srcY t hsy ht)]
  rw [capturedBmp_getD_px2]

theorem uncompressedPixel_emitted_ok (d : Nat) (pt : PaletteType) (w h : Nat) (px : Bytes)
    (ch : Nat) (hd : d ∈ supportedBitDepths) (hpxb : ∀ v ∈ px, v < 256)
    (hpx : px.length = bmpStride d w * h) (srcY x : Nat) (hsy : srcY < h) (hx : x < w) :
    ∃ c, uncompressedPixel (capturedBmp d pt w h px) d
      (readPalette (capturedBmp d pt w h px) (getNumColorsForBitDepth d)) ch
      (14 + 40 + getNumColorsForBitDepth d * 4 + srcY * bmpStride d w) x = .ok c := by
  simp only [supportedBitDepths, List.mem_cons, List.not_mem_nil, or_false] at hd
  rcases hd with rfl | rfl | rfl | rfl | rfl | rfl
  · simp only [uncompressedPixel,
      getU8_emitted 1 pt w h px hpx srcY (x / 8) hsy (by rw [bmpStride]; omega),
      exceptBind_ok]
    rw [paletteGet_ok _ _ (by
      rw [readPalette_length]
      exact lt_of_le_of_lt Nat.and_le_right (by decide))]
    exact ⟨_, rfl⟩
  · simp only [uncompressedPixel,
      getU8_emitted 4 pt w h px hpx srcY (x / 2) hsy (by rw [bmpStride]; omega),
      exceptBind_ok]
    rw [paletteGet_ok _ _ (by
      rw [readPalette_length]
      exact lt_of_le_of_lt Nat.and_le_right (by decide))]
    exact ⟨_, rfl⟩
  · simp only [uncompressedPixel,
      getU8_emitted 8 pt w h px hpx srcY x hsy (by rw [bmpStride]; omega),
      exceptBind_ok]
    rw [paletteGet_ok _ _ (by
      rw [readPalette_length]
      exact getD_lt_of_forall px _ hpxb)]
    exact ⟨_, rfl⟩
  · simp only [uncompressedPixel]
    rw [getU16_ok _ _ (by
      have := emitted_read_bound 16 pt w h px hpx srcY (x * 2 + 1) hsy
        (by rw [bmpStride]; omega)
      omega)]
    exact ⟨_, rfl⟩
  · simp only [uncompressedPixel,
      getU8_emitted 24 pt w h px hpx srcY (x * 3) hsy (by rw [bmpStride]; omega),
      exceptBind_ok]
    rw [show 14 + 40 + getNumColorsForBitDepth 24 * 4 + srcY * bmpStride 24 w + x * 3 + 1 =
        14 + 40 + getNumColorsForBitDepth 24 * 4 + srcY * bmpStride 24 w + (x * 3 + 1) from
      by omega]
    rw [getU8_emitted 24 pt w h px hpx srcY (x * 3 + 1) hsy (by rw [bmpStride]; omega)]
    simp only [exceptBind_ok]
    rw [show 14 + 40 + getNumColorsForBitDepth 24 * 4 + srcY * bmpStride 24 w + x * 3 + 2 =
        14 + 40 + getNumColorsForBitDepth 24 * 4 + srcY * bmpStride 24 w + (x * 3 + 2) from
      by omega]
    rw [getU8_emitted 24 pt w h px hpx srcY (x * 3 + 2) hsy (by rw [bmpStride]; omega)]
    exact ⟨_, rfl⟩
  · simp only [uncompressedPixel,
      getU8_emitted 32 pt w h px hpx srcY (x * 4) hsy (by rw [bmpStride]; omega),
      exceptBind_ok]
    rw [show 14 + 40 + getNumColorsForBitDepth 32 * 4 + srcY * bmpStride 32 w + x * 4 + 1 =
        14 + 40 + getNumColorsForBitDepth 32 * 4 + srcY * bmpStride 32 w + (x * 4 + 1) from
      by omega]
    rw [getU8_emitted 32 pt w h px hpx srcY (x * 4 + 1) hsy (by rw [bmpStride]; omega)]
    simp only [exceptBind_ok]
    rw [show 14 + 40 + getNumColorsForBitDepth 32 * 4 + srcY * bmpStride 32 w + x * 4 + 2 =
        14 + 40 + getNumColorsForBitDepth 32 * 4 + srcY * bmpStride 32 w + (x * 4 + 2) from
      by omega]
    rw [getU8_emitted 32 pt w h px hpx srcY (x * 4 + 2) hsy (by rw [bmpStride]; omega)]
    simp only [exceptBind_ok]
    rw [show 14 + 40 + getNumColorsForBitDepth 32 * 4 + srcY * bmpStride 32 w + x * 4 + 3 =
        14 + 40 + getNumColorsForBitDepth 32 * 4 + srcY * bmpStride 32 w + (x * 4 + 3) from
      by omega]
    rw [getU8_emitted 32 pt w h px hpx srcY (x * 4 + 3) hsy (by rw [bmpStride]; omega)]
    exact ⟨_, rfl⟩

theorem colorsUsed_emitted (d : Nat) (hd : d ∈ supportedBitDepths) :
    (if getNumColorsForBitDepth d = 0 ∧ d ≤ 8 then 1 <<< d else getNumColorsForBitDepth d) =
      getNumColorsForBitDepth d := by
  simp only [supportedBitDepths, List.mem_cons, List.not_mem_nil, or_false] at hd
  rcases hd with rfl | rfl | rfl | rfl | rfl | rfl <;> decide

theorem bitDepth_le_32 (d : Nat) (hd : d ∈ supportedBitDepths) : d ≤ 32 := by
  simp only [supportedBitDepths, List.mem_cons, List.not_mem_nil, or_false] at hd
  rcases hd with rfl | rfl | rfl | rfl | rfl | rfl <;> decide

theorem processUncompressed_emitted_ok (d : Nat) (pt : PaletteType) (w h : Nat) (px : Bytes)
    (ch : Nat) (hd : d ∈ supportedBitDepths) (hpxb : ∀ v ∈ px, v < 256)
    (hpx : px.length = bmpStride d w * h) :
    ∃ data, processUncompressedBitmap (capturedBmp d pt w h px) w h d
      (14 + 40 + getNumColorsForBitDepth d * 4) (getNumColorsForBitDepth d) false ch =
        .ok data := by
  rw [processUncompressedBitmap]
  have hstride : (d * w + 31) / 32 * 4 = bmpStride d w := rfl
  have hrow : ∀ y ∈ List.range h, ∃ rdata,
      uncompressedRow (capturedBmp d pt w h px) d
        (readPalette (capturedBmp d pt w h px) (getNumColorsForBitDepth d)) w ch
        (14 + 40 + getNumColorsForBitDepth d * 4 + (h - 1 - y) * bmpStride d w) = .ok rdata := by
    intro y hy
    have hy2 := List.mem_range.mp hy
    rw [uncompressedRow]
    obtain ⟨ps, hps, _⟩ := mapM_ok_of_forall _ (List.range w) (fun x hx =>
      uncompressedPixel_emitted_ok d pt w h px ch hd hpxb hpx (h - 1 - y) x (by omega)
        (List.mem_range.mp hx))
    rw [hps]
    exact ⟨_, rfl⟩
  obtain ⟨rows, hrows, _⟩ := mapM_ok_of_forall
    (fun y => uncompressedRow (capturedBmp d pt w h px) d
      (readPalette (capturedBmp d pt w h px) (getNumColorsForBitDepth d)) w ch
      (14 + 40 + getNumColorsForBitDepth d * 4 +
        (if (false : Bool) then y else h - 1 - y) * bmpStride d w))
    (List.range h)
    (fun y hy => by
      simp only [Bool.false_eq_true, if_false]
      exact hrow y hy)
  simp only [hstride]
  rw [hrows]
  exact ⟨_, rfl⟩

/-- C1: for every supported bit depth, positive width and height (within
int32 range) and every byte content of the pixel region, the BMP buffer
assembled by createBitmapBuffers is decoded by bmpToRgb without error,
and the image has exactly the captured width and height. -/
theorem c1_capture_decodes_roundtrip (d : Nat) (pt : PaletteType) (w h : Nat) (px : Bytes)
    (hd : d ∈ supportedBitDepths) (hw : 0 < w) (hwlt : w < 2 ^ 31)
    (hh : 0 < h) (hhlt : h < 2 ^ 31)
    (hpx : px.length = bmpStride d w * h) (hpxb : ∀ v ∈ px, v < 256) :
    ∃ img, bmpToRgb (capturedBmp d pt w h px) = .ok img ∧
      img.width = (w : Int) ∧ img.height = (h : Int) := by
  obtain ⟨h2, h10, h14, h18, h22, h28, h30, h46⟩ := capturedBmp_fields d pt w h px
  have hnc := getNumColors_le d
  have hlen : 50 ≤ (capturedBmp d pt w h px).length := by
    rw [capturedBmp_length d pt w h px hpx]
    omega
  have hsig0 : (capturedBmp d pt w h px).getD 0 0 = 0x42 := by
    rw [capturedBmp_eq, bmpFileHeader]
    simp
  have hsig1 : (capturedBmp d pt w h px).getD 1 0 = 0x4D := by
    rw [capturedBmp_eq, bmpFileHeader]
    simp
  have h10' : peekU32 (capturedBmp d pt w h px) 10 =
      14 + 40 + getNumColorsForBitDepth d * 4 := by
    rw [h10]
    omega
  have h46' : peekU32 (capturedBmp d pt w h px) 46 = getNumColorsForBitDepth d := by
    rw [h46]
    omega
  have h28' : peekU16 (capturedBmp d pt w h px) 28 = d := by
    rw [h28]
    have := bitDepth_le_32 d hd
    omega
  have hw18 : peekU32 (capturedBmp d pt w h px) 18 = w := by
    rw [h18]
    omega
  have hh22 : peekU32 (capturedBmp d pt w h px) 22 = h := by
    rw [h22]
    omega
  have hi18 : peekI32 (capturedBmp d pt w h px) 18 = (w : Int) := by
    rw [peekI32_ofNat _ _ (by rw [hw18]; omega), hw18]
  have hi22 : peekI32 (capturedBmp d pt w h px) 22 = (h : Int) := by
    rw [peekI32_ofNat _ _ (by rw [hh22]; omega), hh22]
  rw [bmpToRgb_parse _ hlen hsig0 hsig1, h10', h14, h28', h30, h46', hi18, hi22, bmpDecode]
  simp only [show decide ((h : Int) < 0) = false from by simp, Bool.false_eq_true, if_false,
    Int.natAbs_ofNat, colorsUsed_emitted d hd]
  rw [if_neg (by exact not_lt.mpr (Int.natCast_nonneg _))]
  rw [Int.toNat_natCast]
  obtain ⟨data, hdata⟩ := processUncompressed_emitted_ok d pt w h px
    (if d = 32 then 4 else 3) hd hpxb hpx
  rw [hdata]
  exact ⟨_, rfl, rfl, rfl⟩

/-- C1 witness: a 24-bit 2x2 capture with a zero-filled pixel region
decodes to a 2x2 image. -/
theorem c1_roundtrip_witness :
    ∃ img, bmpToRgb (capturedBmp 24 PaletteType.halftone 2 2 (List.replicate 16 0)) = .ok img ∧
      img.width = (2 : Int) ∧ img.height = (2 : Int) :=
  c1_capture_decodes_roundtrip 24 PaletteType.halftone 2 2 (List.replicate 16 0)
    (by decide) (by decide) (by decide) (by decide) (by decide) (by decide)
    (by decide)

theorem writeBytes_length (vs : Bytes) : ∀ (b : Bytes) (i : Nat),
    (writeBytes b i vs).length = b.length := by
  induction vs with
  | nil => intro b i; rfl
  | cons v t ih =>
    intro b i
    rw [writeBytes, ih, List.length_set]

theorem writeBytes_getD_outside (vs : Bytes) : ∀ (b : Bytes) (i j : Nat),
    (j < i ∨ i + vs.length ≤ j) → (writeBytes b i vs).getD j 0 = b.getD j 0 := by
  induction vs with
  | nil => intro b i j _; rfl
  | cons v t ih =>
    intro b i j hj
    rw [writeBytes, ih (b.set i v) (i + 1) j (by simp at hj ⊢; omega)]
    rcases Nat.lt_or_ge j b.length with hb | hb
    · rw [List.getD_eq_getElem _ _ (by simpa using hb), List.getD_eq_getElem _ _ hb]
      rw [List.getElem_set_ne (by simp at hj; omega)]
    · rw [List.getD_eq_default _ _ (by simpa using hb), List.getD_eq_default _ _ hb]

theorem writeBytes_getD_at (vs : Bytes) : ∀ (b : Bytes) (i k : Nat),
    k < vs.length → i + vs.length ≤ b.length →
    (writeBytes b i vs).getD (i + k) 0 = vs.getD k 0 := by
  induction vs with
  | nil => intro b i k hk _; simp at hk
  | cons v t ih =>
    intro b i k hk hlen
    rw [writeBytes]
    cases k with
    | zero =>
      rw [writeBytes_getD_outside t (b.set i v) (i + 1) (i + 0) (by omega)]
      rw [Nat.add_zero, List.getD_eq_getElem _ _ (by simp; simp at hlen; omega)]
      rw [List.getElem_set_self]
      rfl
    | succ k2 =>
      rw [show i + (k2 + 1) = (i + 1) + k2 from by omega]
      rw [ih (b.set i v) (i + 1) k2 (by simpa using hk) (by simp; simp at hlen; omega)]
      rfl

theorem getU8_congr (b1 b2 : Bytes) (hlen : b1.length = b2.length)
    (hag : ∀ j, j < 22 ∨ 26 ≤ j → b1.getD j 0 = b2.getD j 0) (i : Nat)
    (hi : i < 22 ∨ 26 ≤ i) : getU8 b1 i = getU8 b2 i := by
  rw [getU8, getU8, hlen]
  by_cases h : i < b2.length
  · rw [if_pos h, if_pos h, hag i hi]
  · rw [if_neg h, if_neg h]

theorem getU16_congr (b1 b2 : Bytes) (hlen : b1.length = b2.length)
    (hag : ∀ j, j < 22 ∨ 26 ≤ j → b1.getD j 0 = b2.getD j 0) (i : Nat)
    (hi : i + 1 < 22 ∨ 26 ≤ i) : getU16 b1 i = getU16 b2 i := by
  rw [getU16, getU16, getU8_congr b1 b2 hlen hag i (by omega),
    getU8_congr b1 b2 hlen hag (i + 1) (by omega)]

theorem getU32_congr (b1 b2 : Bytes) (hlen : b1.length = b2.length)
    (hag : ∀ j, j < 22 ∨ 26 ≤ j → b1.getD j 0 = b2.getD j 0) (i : Nat)
    (hi : i + 3 < 22 ∨ 26 ≤ i) : getU32 b1 i = getU32 b2 i := by
  rw [getU32, getU32, getU8_congr b1 b2 hlen hag i (by omega),
    getU8_congr b1 b2 hlen hag (i + 1) (by omega),
    getU8_congr b1 b2 hlen hag (i + 2) (by omega),
    getU8_congr b1 b2 hlen hag (i + 3) (by omega)]

theorem readPalette_congr (b1 b2 : Bytes) (hlen : b1.length = b2.length)
    (hag : ∀ j, j < 22 ∨ 26 ≤ j → b1.getD j 0 = b2.getD j 0) (cu : Nat) :
    readPalette b1 cu = readPalette b2 cu := by
  rw [readPalette, readPalette]
  refine List.map_congr_left (fun i _ => ?_)
  rw [hlen]
  by_cases hin : 14 + 40 + i * 4 + 3 < b2.length
  · rw [if_pos hin, if_pos hin, hag _ (by omega), hag _ (by omega), hag _ (by omega)]
  · rw [if_neg hin, if_neg hin]

theorem mapM_congr (f g : α → Except String β) (l : List α)
    (h : ∀ a ∈ l, f a = g a) : l.mapM f = l.mapM g := by
  induction l with
  | nil => rfl
  | cons a t ih =>
    rw [List.mapM_cons, List.mapM_cons, h a (by simp), ih (fun x hx => h x (by simp [hx]))]

theorem exceptBind_error (e : String) (f : α → Except String β) :
    (Except.error e >>= f : Except String β) = Except.error e := rfl

theorem mapM_ok_length (f : α → Except String β) (l : List α) (bs : List β)
    (h : l.mapM f = .ok bs) : bs.length = l.length := by
  induction l generalizing bs with
  | nil =>
    have h2 : (Except.ok [] : Except String (List β)) = .ok bs := h
    cases h2
    rfl
  | cons a t ih =>
    rw [List.mapM_cons] at h
    cases hfa : f a with
    | error e =>
      rw [hfa, exceptBind_error] at h
      simp at h
    | ok b =>
      rw [hfa, exceptBind_ok] at h
      cases htr : t.mapM f with
      | error e =>
        rw [htr, exceptBind_error] at h
        simp at h
      | ok bs2 =>
        rw [htr, exceptBind_ok] at h
        have h2 : (Except.ok (b :: bs2) : Except String (List β)) = .ok bs := h
        cases h2
        simp [ih bs2 htr]

theorem mapM_errconst (f : α → Except String β) (E : String)
    (hf : ∀ a e, f a = .error e → e = E) (l : List α) :
    ∀ e, l.mapM f = .error e → e = E := by
  induction l with
  | nil =>
    intro e he
    have h2 : (Except.ok [] : Except String (List β)) = .error e := he
    simp at h2
  | cons a t ih =>
    intro e he
    rw [List.mapM_cons] at he
    cases hfa : f a with
    | error e2 =>
      rw [hfa, exceptBind_error] at he
      have h2 : (Except.error e2 : Except String (List β)) = .error e := he
      injection h2 with h3
      exact h3 ▸ hf a e2 hfa
    | ok b =>
      rw [hfa, exceptBind_ok] at he
      cases htr : t.mapM f with
      | error e2 =>
        rw [htr, exceptBind_error] at he
        have h2 : (Except.error e2 : Except String (List β)) = .error e := he
        injection h2 with h3
        exact h3 ▸ ih e2 htr
      | ok bs =>
        rw [htr, exceptBind_ok] at he
        have h2 : (Except.ok (b :: bs) : Except String (List β)) = .error e := he
        simp at h2

theorem exceptMap_ok_elim (m : Except String α) (f : α → β) (b : β)
    (h : m.map f = .ok b) : ∃ a, m = .ok a ∧ f a = b := by
  cases m with
  | error e =>
    have h2 : (Except.error e : Except String β) = .ok b := h
    simp at h2
  | ok a =>
    have h2 : (Except.ok (f a) : Except String β) = .ok b := h
    injection h2 with h3
    exact ⟨a, rfl, h3⟩

theorem exceptMap_error_elim (m : Except String α) (f : α → β) (e : String)
    (h : m.map f = .error e) : m = .error e := by
  cases m with
  | error e2 =>
    have h2 : (Except.error e2 : Except String β) = .error e := h
    injection h2 with h3
    rw [h3]
  | ok a =>
    have h2 : (Except.ok (f a) : Except String β) = .error e := h
    simp at h2

theorem exceptBind_error_elim (m : Except String α) (k : α → Except String β) (e : String)
    (h : (m >>= k) = .error e) : m = .error e ∨ ∃ a, m = .ok a ∧ k a = .error e := by
  cases m with
  | error e2 =>
    have h2 : (Except.error e2 : Except String β) = .error e := h
    injection h2 with h3
    exact .inl (by rw [h3])
  | ok a =>
    exact .inr ⟨a, rfl, h⟩

theorem mapM_map_fn (f : β → Except String γ) (σ : α → β) (l : List α) :
    (l.map σ).mapM f = l.mapM (fun a => f (σ a)) := by
  induction l with
  | nil => rfl
  | cons a t ih => rw [List.map_cons, List.mapM_cons, List.mapM_cons, ih]

theorem range_flip_map (h : Nat) :
    (List.range h).map (fun y => h - 1 - y) = (List.range h).reverse := by
  apply List.ext_getElem
  · simp
  intro i h1 h2
  simp [List.getElem_reverse, List.getElem_range]

theorem mapM_append_ok (f : α → Except String β) (l1 l2 : List α) (bs1 bs2 : List β)
    (h1 : l1.mapM f = .ok bs1) (h2 : l2.mapM f = .ok bs2) :
    (l1 ++ l2).mapM f = .ok (bs1 ++ bs2) := by
  induction l1 generalizing bs1 with
  | nil =>
    have h3 : (Except.ok [] : Except String (List β)) = .ok bs1 := h1
    injection h3 with h4
    rw [← h4, List.nil_append, List.nil_append, h2]
  | cons a t ih =>
    rw [List.mapM_cons] at h1
    cases hfa : f a with
    | error e =>
      rw [hfa, exceptBind_error] at h1
      simp at h1
    | ok b =>
      rw [hfa, exceptBind_ok] at h1
      cases htr : t.mapM f with
      | error e =>
        rw [htr, exceptBind_error] at h1
        simp at h1
      | ok bs3 =>
        rw [htr, exceptBind_ok] at h1
        have h3 : (Except.ok (b :: bs3) : Except String (List β)) = .ok bs1 := h1
        injection h3 with h4
        rw [← h4, List.cons_append, List.mapM_cons, hfa, exceptBind_ok,
          ih bs3 htr, exceptBind_ok]
        rfl

theorem mapM_singleton_ok (f : α → Except String β) (a : α) (b : β) (h : f a = .ok b) :
    ([a] : List α).mapM f = .ok [b] := by
  rw [List.mapM_cons, h, exceptBind_ok]
  rfl

theorem mapM_reverse_ok (f : α → Except String β) (l : List α) (bs : List β)
    (h : l.mapM f = .ok bs) : l.reverse.mapM f = .ok bs.reverse := by
  induction l generalizing bs with
  | nil =>
    have h2 : (Except.ok [] : Except String (List β)) = .ok bs := h
    injection h2 with h3
    rw [← h3]
    rfl
  | cons a t ih =>
    rw [List.mapM_cons] at h
    cases hfa : f a with
    | error e =>
      rw [hfa, exceptBind_error] at h
      simp at h
    | ok b =>
      rw [hfa, exceptBind_ok] at h
      cases htr : t.mapM f with
      | error e =>
        rw [htr, exceptBind_error] at h
        simp at h
      | ok bs2 =>
        rw [htr, exceptBind_ok] at h
        have h2 : (Except.ok (b :: bs2) : Except String (List β)) = .ok bs := h
        injection h2 with h3
        rw [← h3, List.reverse_cons, List.reverse_cons]
        exact mapM_append_ok f t.reverse [a] bs2.reverse [b] (ih bs2 htr)
          (mapM_singleton_ok f a b hfa)

theorem mapM_reverse_error (f : α → Except String β) (E : String)
    (hf : ∀ a e, f a = .error e → e = E) (l : List α) (e : String)
    (h : l.mapM f = .error e) : l.reverse.mapM f = .error e := by
  have he : e = E := mapM_errconst f E hf l e h
  cases hrev : l.reverse.mapM f with
  | ok bs =>
    exfalso
    have h2 := mapM_reverse_ok f l.reverse bs hrev
    rw [List.reverse_reverse, h] at h2
    simp at h2
  | error e2 =>
    have h2 : e2 = E := mapM_errconst f E hf l.reverse e2 hrev
    rw [h2, he]

theorem mapM_flip_ok (g : Nat → Except String Bytes) (h : Nat) (rows : List Bytes)
    (hpos : (List.range h).mapM (fun y => g (h - 1 - y)) = .ok rows) :
    (List.range h).mapM g = .ok rows.reverse := by
  rw [← mapM_map_fn g (fun y => h - 1 - y) (List.range h), range_flip_map] at hpos
  have h2 := mapM_reverse_ok g (List.range h).reverse rows hpos
  rw [List.reverse_reverse] at h2
  exact h2

theorem mapM_flip_error (g : Nat → Except String Bytes) (E : String)
    (hg : ∀ y e, g y = .error e → e = E) (h : Nat) (e : String)
    (hpos : (List.range h).mapM (fun y => g (h - 1 - y)) = .error e) :
    (List.range h).mapM g = .error e := by
  rw [← mapM_map_fn g (fun y => h - 1 - y) (List.range h), range_flip_map] at hpos
  have h2 := mapM_reverse_error g E hg (List.range h).reverse e hpos
  rw [List.reverse_reverse] at h2
  exact h2

theorem bind_errconst (m : Except String α) (k : α → Except String β) (E : String)
    (hm : ∀ e, m = .error e → e = E) (hk : ∀ a e, k a = .error e → e = E) :
    ∀ e, (m >>= k) = .error e → e = E := by
  intro e he
  rcases exceptBind_error_elim m k e he with h | ⟨a, _, h⟩
  · exact hm e h
  · exact hk a e h

theorem pure_errconst (b : α) (E : String) :
    ∀ e, (pure b : Except String α) = .error e → e = E := by
  intro e he
  have h2 : (Except.ok b : Except String α) = .error e := he
  simp at h2

theorem getU8_errconst (b : Bytes) (i : Nat) :
    ∀ e, getU8 b i = .error e → e = "RuntimeError" := by
  intro e he
  rw [getU8] at he
  by_cases h : i < b.length
  · rw [if_pos h] at he
    simp at he
  · rw [if_neg h] at he
    injection he with h2
    rw [h2]

theorem getU16_errconst (b : Bytes) (i : Nat) :
    ∀ e, getU16 b i = .error e → e = "RuntimeError" := by
  rw [getU16]
  exact bind_errconst _ _ _ (getU8_errconst b i)
    (fun b0 => bind_errconst _ _ _ (getU8_errconst b (i + 1))
      (fun b1 => pure_errconst _ _))

theorem getU32_errconst (b : Bytes) (i : Nat) :
    ∀ e, getU32 b i = .error e → e = "RuntimeError" := by
  rw [getU32]
  exact bind_errconst _ _ _ (getU8_errconst b i)
    (fun b0 => bind_errconst _ _ _ (getU8_errconst b (i + 1))
      (fun b1 => bind_errconst _ _ _ (getU8_errconst b (i + 2))
        (fun b2 => bind_errconst _ _ _ (getU8_errconst b (i + 3))
          (fun b3 => pure_errconst _ _))))

theorem paletteGet_errconst (palette : List Bytes) (i : Nat) :
    ∀ e, paletteGet palette i = .error e → e = "RuntimeError" := by
  intro e he
  rw [paletteGet] at he
  by_cases h : i < palette.length
  · rw [if_pos h] at he
    simp at he
  · rw [if_neg h] at he
    injection he with h2
    rw [h2]

theorem uncompressedPixel_errconst (dataView : Bytes) (bitDepth : Nat)
    (palette : List Bytes) (channels srcRowOffset x : Nat) :
    ∀ e, uncompressedPixel dataView bitDepth palette channels srcRowOffset x = .error e →
      e = "RuntimeError" := by
  rw [uncompressedPixel.eq_def]
  split
  · exact bind_errconst _ _ _ (getU8_errconst _ _)
      (fun byte => bind_errconst _ _ _ (paletteGet_errconst _ _)
        (fun c => pure_errconst _ _))
  · exact bind_errconst _ _ _ (getU8_errconst _ _)
      (fun byte => bind_errconst _ _ _ (paletteGet_errconst _ _)
        (fun c => pure_errconst _ _))
  · exact bind_errconst _ _ _ (getU8_errconst _ _)
      (fun ci => bind_errconst _ _ _ (paletteGet_errconst _ _)
        (fun c => pure_errconst _ _))
  · exact bind_errconst _ _ _ (getU16_errconst _ _)
      (fun pixel => pure_errconst _ _)
  · exact bind_errconst _ _ _ (getU8_errconst _ _)
      (fun b1 => bind_errconst _ _ _ (getU8_errconst _ _)
        (fun g1 => bind_errconst _ _ _ (getU8_errconst _ _)
          (fun r1 => pure_errconst _ _)))
  · exact bind_errconst _ _ _ (getU8_errconst _ _)
      (fun b1 => bind_errconst _ _ _ (getU8_errconst _ _)
        (fun g1 => bind_errconst _ _ _ (getU8_errconst _ _)
          (fun r1 => bind_errconst _ _ _ (getU8_errconst _ _)
            (fun a1 => pure_errconst _ _))))
  · exact pure_errconst _ _

theorem uncompressedRow_errconst (dataView : Bytes) (bitDepth : Nat)
    (palette : List Bytes) (width channels srcRowOffset : Nat) :
    ∀ e, uncompressedRow dataView bitDepth palette width channels srcRowOffset = .error e →
      e = "RuntimeError" := by
  intro e he
  rw [uncompressedRow] at he
  have h2 := exceptMap_error_elim _ _ _ he
  exact mapM_errconst _ _
    (fun x => uncompressedPixel_errconst dataView bitDepth palette channels srcRowOffset x)
    _ _ h2

theorem rleExpandRow_errconst (palette : List Bytes) (decodedPixels : Bytes)
    (width channels srcY : Nat) :
    ∀ e, rleExpandRow palette decodedPixels width channels srcY = .error e →
      e = "RuntimeError" := by
  intro e he
  rw [rleExpandRow] at he
  have h2 := exceptMap_error_elim _ _ _ he
  exact mapM_errconst _ _
    (fun x => bind_errconst _ _ _ (paletteGet_errconst _ _) (fun c => pure_errconst _ _))
    _ _ h2

theorem bitfieldsPixel_errconst (dataView : Bytes) (bitDepth : Nat)
    (rm gm bm am rs gs bsh ash : Nat) (rq gq bq aq : ℚ) (channels byteOffset : Nat) :
    ∀ e, bitfieldsPixel dataView bitDepth rm gm bm am rs gs bsh ash rq gq bq aq
      channels byteOffset = .error e → e = "RuntimeError" := by
  intro e he
  rw [bitfieldsPixel] at he
  by_cases h16 : bitDepth = 16
  · rw [if_pos h16] at he
    exact bind_errconst _ _ _ (getU16_errconst _ _) (fun pixel => pure_errconst _ _) e he
  · rw [if_neg h16] at he
    exact bind_errconst _ _ _ (getU32_errconst _ _) (fun pixel => pure_errconst _ _) e he

theorem bitfieldsRow_errconst (dataView : Bytes) (bitDepth : Nat)
    (rm gm bm am rs gs bsh ash : Nat) (rq gq bq aq : ℚ)
    (width channels rowOffset bytesPerPixel : Nat) :
    ∀ e, bitfieldsRow dataView bitDepth rm gm bm am rs gs bsh ash rq gq bq aq
      width channels rowOffset bytesPerPixel = .error e → e = "RuntimeError" := by
  intro e he
  rw [bitfieldsRow] at he
  have h2 := exceptMap_error_elim _ _ _ he
  exact mapM_errconst _ _
    (fun x => bitfieldsPixel_errconst dataView bitDepth rm gm bm am rs gs bsh ash
      rq gq bq aq channels _)
    _ _ h2

theorem uncompressedPixel_congr (b1 b2 : Bytes) (hlen : b1.length = b2.length)
    (hag : ∀ j, j < 22 ∨ 26 ≤ j → b1.getD j 0 = b2.getD j 0) (bitDepth : Nat)
    (palette : List Bytes) (channels off x : Nat) (hoff : 26 ≤ off) :
    uncompressedPixel b1 bitDepth palette channels off x =
      uncompressedPixel b2 bitDepth palette channels off x := by
  rw [uncompressedPixel.eq_def, uncompressedPixel.eq_def]
  split
  · rw [getU8_congr b1 b2 hlen hag (off + x / 8) (Or.inr (by omega))]
  · rw [getU8_congr b1 b2 hlen hag (off + x / 2) (Or.inr (by omega))]
  · rw [getU8_congr b1 b2 hlen hag (off + x) (Or.inr (by omega))]
  · rw [getU16_congr b1 b2 hlen hag (off + x * 2) (Or.inr (by omega))]
  · rw [getU8_congr b1 b2 hlen hag (off + x * 3) (Or.inr (by omega)),
      getU8_congr b1 b2 hlen hag (off + x * 3 + 1) (Or.inr (by omega)),
      getU8_congr b1 b2 hlen hag (off + x * 3 + 2) (Or.inr (by omega))]
  · rw [getU8_congr b1 b2 hlen hag (off + x * 4) (Or.inr (by omega)),
      getU8_congr b1 b2 hlen hag (off + x * 4 + 1) (Or.inr (by omega)),
      getU8_congr b1 b2 hlen hag (off + x * 4 + 2) (Or.inr (by omega)),
      getU8_congr b1 b2 hlen hag (off + x * 4 + 3) (Or.inr (by omega))]
  · rfl

theorem uncompressedRow_congr (b1 b2 : Bytes) (hlen : b1.length = b2.length)
    (hag : ∀ j, j < 22 ∨ 26 ≤ j → b1.getD j 0 = b2.getD j 0) (bitDepth : Nat)
    (palette : List Bytes) (width channels off : Nat) (hoff : 26 ≤ off) :
    uncompressedRow b1 bitDepth palette width channels off =
      uncompressedRow b2 bitDepth palette width channels off := by
  rw [uncompressedRow, uncompressedRow,
    mapM_congr _ _ _ (fun x _ =>
      uncompressedPixel_congr b1 b2 hlen hag bitDepth palette channels off x hoff)]

theorem bitfieldsPixel_congr (b1 b2 : Bytes) (hlen : b1.length = b2.length)
    (hag : ∀ j, j < 22 ∨ 26 ≤ j → b1.getD j 0 = b2.getD j 0) (bitDepth : Nat)
    (rm gm bm am rs gs bsh ash : Nat) (rq gq bq aq : ℚ) (channels off : Nat)
    (hoff : 26 ≤ off) :
    bitfieldsPixel b1 bitDepth rm gm bm am rs gs bsh ash rq gq bq aq channels off =
      bitfieldsPixel b2 bitDepth rm gm bm am rs gs bsh ash rq gq bq aq channels off := by
  rw [bitfieldsPixel, bitfieldsPixel]
  by_cases h16 : bitDepth = 16
  · rw [if_pos h16, if_pos h16, getU16_congr b1 b2 hlen hag off (Or.inr hoff)]
  · rw [if_neg h16, if_neg h16, getU32_congr b1 b2 hlen hag off (Or.inr hoff)]

theorem bitfieldsRow_congr (b1 b2 : Bytes) (hlen : b1.length = b2.length)
    (hag : ∀ j, j < 22 ∨ 26 ≤ j → b1.getD j 0 = b2.getD j 0) (bitDepth : Nat)
    (rm gm bm am rs gs bsh ash : Nat) (rq gq bq aq : ℚ)
    (width channels rowOffset bytesPerPixel : Nat) (hoff : 26 ≤ rowOffset) :
    bitfieldsRow b1 bitDepth rm gm bm am rs gs bsh ash rq gq bq aq
        width channels rowOffset bytesPerPixel =
      bitfieldsRow b2 bitDepth rm gm bm am rs gs bsh ash rq gq bq aq
        width channels rowOffset bytesPerPixel := by
  rw [bitfieldsRow, bitfieldsRow,
    mapM_congr _ _ _ (fun x _ =>
      bitfieldsPixel_congr b1 b2 hlen hag bitDepth rm gm bm am rs gs bsh ash rq gq bq aq
        channels (rowOffset + x * bytesPerPixel) (by omega))]

theorem bitfieldsMaskRead_congr (b1 b2 : Bytes) (hlen : b1.length = b2.length)
    (hag : ∀ j, j < 22 ∨ 26 ≤ j → b1.getD j 0 = b2.getD j 0)
    (bitDepth pixelDataOffset headerSize : Nat) :
    bitfieldsMaskRead b1 bitDepth pixelDataOffset headerSize =
      bitfieldsMaskRead b2 bitDepth pixelDataOffset headerSize := by
  rw [bitfieldsMaskRead, bitfieldsMaskRead]
  by_cases h40 : headerSize = 40
  · rw [if_pos h40, if_pos h40,
      getU32_congr b1 b2 hlen hag (14 + 40) (Or.inr (by omega)),
      getU32_congr b1 b2 hlen hag (14 + 44) (Or.inr (by omega)),
      getU32_congr b1 b2 hlen hag (14 + 48) (Or.inr (by omega)),
      getU32_congr b1 b2 hlen hag (14 + 52) (Or.inr (by omega))]
  · rw [if_neg h40, if_neg h40]
    by_cases h56 : headerSize ≥ 56
    · rw [if_pos h56, if_pos h56,
        getU32_congr b1 b2 hlen hag (14 + 40) (Or.inr (by omega)),
        getU32_congr b1 b2 hlen hag (14 + 44) (Or.inr (by omega)),
        getU32_congr b1 b2 hlen hag (14 + 48) (Or.inr (by omega)),
        getU32_congr b1 b2 hlen hag (14 + 52) (Or.inr (by omega))]
    · rw [if_neg h56, if_neg h56]

theorem rle8Abs_congr (b1 b2 : Bytes) (hlen : b1.length = b2.length)
    (hag : ∀ j, j < 22 ∨ 26 ≤ j → b1.getD j 0 = b2.getD j 0) (w h : Nat) :
    ∀ j x y i pixels, 26 ≤ i →
      rle8Abs b1 w h j x y i pixels = rle8Abs b2 w h j x y i pixels := by
  intro j
  induction j with
  | zero => intro x y i pixels _; rfl
  | succ j ih =>
    intro x y i pixels hi
    simp only [rle8Abs]
    rw [hlen]
    by_cases hge : i ≥ b2.length
    · rw [if_pos hge, if_pos hge]
    · rw [if_neg hge, if_neg hge]
      by_cases hxy : x < w ∧ y < h
      · rw [if_pos hxy, if_pos hxy, hag i (Or.inr hi), ih (x + 1) y (i + 1) _ (by omega)]
      · rw [if_neg hxy, if_neg hxy, ih (x + 1) y (i + 1) pixels (by omega)]

theorem rle8Abs_i_le (b : Bytes) (w h : Nat) :
    ∀ j x y i pixels, i ≤ (rle8Abs b w h j x y i pixels).2.1 := by
  intro j
  induction j with
  | zero => intro x y i pixels; exact Nat.le_refl i
  | succ j ih =>
    intro x y i pixels
    simp only [rle8Abs]
    by_cases hge : i ≥ b.length
    · rw [if_pos hge]
    · rw [if_neg hge]
      by_cases hxy : x < w ∧ y < h
      · rw [if_pos hxy]
        exact Nat.le_trans (by omega) (ih (x + 1) y (i + 1) _)
      · rw [if_neg hxy]
        exact Nat.le_trans (by omega) (ih (x + 1) y (i + 1) pixels)

theorem rle4Abs_congr (b1 b2 : Bytes) (hlen : b1.length = b2.length)
    (hag : ∀ j, j < 22 ∨ 26 ≤ j → b1.getD j 0 = b2.getD j 0) (w h : Nat) :
    ∀ j nib x y i pixels, 27 ≤ i →
      rle4Abs b1 w h j nib x y i pixels = rle4Abs b2 w h j nib x y i pixels := by
  intro j
  induction j with
  | zero => intro nib x y i pixels _; rfl
  | succ j ih =>
    intro nib x y i pixels hi
    simp only [rle4Abs]
    by_cases hnib : nib = 0
    · rw [if_pos hnib, if_pos hnib, hlen]
      by_cases hge : i ≥ b2.length
      · rw [if_pos hge, if_pos hge]
      · rw [if_neg hge, if_neg hge, hag i (Or.inr (by omega)),
          ih 1 (x + 1) y (i + 1) _ (by omega)]
    · rw [if_neg hnib, if_neg hnib, hag (i - 1) (Or.inr (by omega)),
        ih 0 (x + 1) y i _ hi]

theorem rle4Abs_i_le (b : Bytes) (w h : Nat) :
    ∀ j nib x y i pixels, i ≤ (rle4Abs b w h j nib x y i pixels).2.1 := by
  intro j
  induction j with
  | zero => intro nib x y i pixels; exact Nat.le_refl i
  | succ j ih =>
    intro nib x y i pixels
    simp only [rle4Abs]
    by_cases hnib : nib = 0
    · rw [if_pos hnib]
      by_cases hge : i ≥ b.length
      · rw [if_pos hge]
      · rw [if_neg hge]
        exact Nat.le_trans (by omega) (ih 1 (x + 1) y (i + 1) _)
    · rw [if_neg hnib]
      exact ih 0 (x + 1) y i _

theorem rle8DecodeLoop_congr (b1 b2 : Bytes) (hlen : b1.length = b2.length)
    (hag : ∀ j, j < 22 ∨ 26 ≤ j → b1.getD j 0 = b2.getD j 0) (w h : Nat)
    (hb2 : 26 ≤ b2.length) :
    ∀ fuel x y i pixels, 26 ≤ i →
      rle8DecodeLoop b1 w h fuel x y i pixels = rle8DecodeLoop b2 w h fuel x y i pixels := by
  intro fuel
  induction fuel with
  | zero => intro x y i pixels _; rfl
  | succ fuel ih =>
    intro x y i pixels hi
    simp only [rle8DecodeLoop]
    rw [hlen]
    by_cases hguard : i + 1 < b2.length ∧ y < h
    · rw [if_pos hguard, if_pos hguard, hag i (Or.inr hi), hag (i + 1) (Or.inr (by omega))]
      by_cases hcount : b2.getD i 0 = 0
      · rw [if_pos hcount, if_pos hcount]
        by_cases hv0 : b2.getD (i + 1) 0 = 0
        · rw [if_pos hv0, if_pos hv0, ih 0 (y + 1) (i + 2) pixels (by omega)]
        · rw [if_neg hv0, if_neg hv0]
          by_cases hv1 : b2.getD (i + 1) 0 = 1
          · rw [if_pos hv1, if_pos hv1, ih x y b2.length pixels hb2]
          · rw [if_neg hv1, if_neg hv1]
            by_cases hv2 : b2.getD (i + 1) 0 = 2
            · rw [if_pos hv2, if_pos hv2]
              by_cases hjl : i + 2 + 1 ≥ b2.length
              · rw [if_pos hjl, if_pos hjl, ih x y (i + 2) pixels (by omega)]
              · rw [if_neg hjl, if_neg hjl, hag (i + 2) (Or.inr (by omega)),
                  hag (i + 2 + 1) (Or.inr (by omega)),
                  ih (x + b2.getD (i + 2) 0) (y + b2.getD (i + 2 + 1) 0) (i + 2 + 2)
                    pixels (by omega)]
            · rw [if_neg hv2, if_neg hv2,
                rle8Abs_congr b1 b2 hlen hag w h (b2.getD (i + 1) 0) x y (i + 2) pixels
                  (by omega)]
              have habs := rle8Abs_i_le b2 w h (b2.getD (i + 1) 0) x y (i + 2) pixels
              by_cases hpar : b2.getD (i + 1) 0 % 2 = 1
              · rw [if_pos hpar]
                exact ih _ y _ _ (by omega)
              · rw [if_neg hpar]
                exact ih _ y _ _ (by omega)
      · rw [if_neg hcount, if_neg hcount]
        exact ih (x + b2.getD i 0) y (i + 2) _ (by omega)
    · rw [if_neg hguard, if_neg hguard]

theorem rle4DecodeLoop_congr (b1 b2 : Bytes) (hlen : b1.length = b2.length)
    (hag : ∀ j, j < 22 ∨ 26 ≤ j → b1.getD j 0 = b2.getD j 0) (w h : Nat)
    (hb2 : 26 ≤ b2.length) :
    ∀ fuel x y i pixels, 26 ≤ i →
      rle4DecodeLoop b1 w h fuel x y i pixels = rle4DecodeLoop b2 w h fuel x y i pixels := by
  intro fuel
  induction fuel with
  | zero => intro x y i pixels _; rfl
  | succ fuel ih =>
    intro x y i pixels hi
    simp only [rle4DecodeLoop]
    rw [hlen]
    by_cases hguard : i + 1 < b2.length ∧ y < h
    · rw [if_pos hguard, if_pos hguard, hag i (Or.inr hi), hag (i + 1) (Or.inr (by omega))]
      by_cases hcount : b2.getD i 0 = 0
      · rw [if_pos hcount, if_pos hcount]
        by_cases hv0 : b2.getD (i + 1) 0 = 0
        · rw [if_pos hv0, if_pos hv0, ih 0 (y + 1) (i + 2) pixels (by omega)]
        · rw [if_neg hv0, if_neg hv0]
          by_cases hv1 : b2.getD (i + 1) 0 = 1
          · rw [if_pos hv1, if_pos hv1, ih x y b2.length pixels hb2]
          · rw [if_neg hv1, if_neg hv1]
            by_cases hv2 : b2.getD (i + 1) 0 = 2
            · rw [if_pos hv2, if_pos hv2]
              by_cases hjl : i + 2 + 1 ≥ b2.length
              · rw [if_pos hjl, if_pos hjl, ih x y (i + 2) pixels (by omega)]
              · rw [if_neg hjl, if_neg hjl, hag (i + 2) (Or.inr (by omega)),
                  hag (i + 2 + 1) (Or.inr (by omega)),
                  ih (x + b2.getD (i + 2) 0) (y + b2.getD (i + 2 + 1) 0) (i + 2 + 2)
                    pixels (by omega)]
            · rw [if_neg hv2, if_neg hv2,
                rle4Abs_congr b1 b2 hlen hag w h (b2.getD (i + 1) 0) 0 x y (i + 2) pixels
                  (by omega)]
              have habs := rle4Abs_i_le b2 w h (b2.getD (i + 1) 0) 0 x y (i + 2) pixels
              by_cases hpar : jsRLE4AbsolutePad (b2.getD (i + 1) 0) = true
              · rw [if_pos hpar]
                exact ih _ y _ _ (by omega)
              · rw [if_neg hpar]
                exact ih _ y _ _ (by omega)
      · rw [if_neg hcount, if_neg hcount]
        exact ih (x + b2.getD i 0) y (i + 2) _ (by omega)
    · rw [if_neg hguard, if_neg hguard]

theorem rowsMap_flip (h : Nat) (L R : Except String Bytes) (g : Nat → Except String Bytes)
    (hg : ∀ y e, g y = .error e → e = "RuntimeError")
    (hL : L = ((List.range h).mapM (fun y => g (h - 1 - y))).map List.flatten)
    (hR : R = ((List.range h).mapM g).map List.flatten) :
    (∀ d, L = .ok d → ∃ rows : List Bytes, d = rows.flatten ∧ rows.length = h ∧
       R = .ok rows.reverse.flatten)
    ∧ (∀ e, L = .error e → R = .error e) := by
  constructor
  · intro d hd
    rw [hL] at hd
    obtain ⟨rows, hm, hf⟩ := exceptMap_ok_elim _ _ _ hd
    refine ⟨rows, hf.symm, ?_, ?_⟩
    · have h2 := mapM_ok_length _ _ _ hm
      rw [List.length_range] at h2
      exact h2
    · rw [hR, mapM_flip_ok g h rows hm]
      rfl
  · intro e he
    rw [hL] at he
    have hm := exceptMap_error_elim _ _ _ he
    rw [hR, mapM_flip_error g "RuntimeError" hg h e hm]
    rfl

theorem flip_parts_of_error (h : Nat) (L R : Except String Bytes) (e0 : String)
    (hL : L = .error e0) (hR : R = .error e0) :
    (∀ d, L = .ok d → ∃ rows : List Bytes, d = rows.flatten ∧ rows.length = h ∧
       R = .ok rows.reverse.flatten)
    ∧ (∀ e, L = .error e → R = .error e) := by
  refine ⟨fun d hd => ?_, fun e he => ?_⟩
  · rw [hL] at hd
    exact absurd hd (by simp)
  · rw [hL] at he
    injection he with h2
    rw [hR, h2]

theorem processUncompressed_eq_rows (b : Bytes) (w h bd pdo cu ch : Nat) (itd : Bool) :
    processUncompressedBitmap b w h bd pdo cu itd ch =
      ((List.range h).mapM (fun y =>
        uncompressedRow b bd (readPalette b cu) w ch
          (pdo + (if itd then y else h - 1 - y) * ((bd * w + 31) / 32 * 4)))).map
        List.flatten := rfl

theorem processRLE8_eq_rows (b : Bytes) (w h pdo cu ch : Nat) (itd : Bool) :
    processRLE8Bitmap b w h pdo cu itd ch =
      ((List.range h).mapM (fun y =>
        rleExpandRow (readPalette b cu)
          (rle8DecodeLoop b w h (b.length + 1) 0 0 pdo (List.replicate (w * h) 0))
          w ch (if itd then y else h - 1 - y))).map List.flatten := rfl

theorem processRLE4_eq_rows (b : Bytes) (w h pdo cu ch : Nat) (itd : Bool) :
    processRLE4Bitmap b w h pdo cu itd ch =
      ((List.range h).mapM (fun y =>
        rleExpandRow (readPalette b cu)
          (rle4DecodeLoop b w h (b.length + 1) 0 0 pdo (List.replicate (w * h) 0))
          w ch (if itd then y else h - 1 - y))).map List.flatten := rfl

theorem processUncompressed_flip (b1 b2 : Bytes) (hlen : b1.length = b2.length)
    (hag : ∀ j, j < 22 ∨ 26 ≤ j → b1.getD j 0 = b2.getD j 0)
    (w h bd pdo cu ch : Nat) (hpdo : 26 ≤ pdo) :
    (∀ d, processUncompressedBitmap b1 w h bd pdo cu false ch = .ok d →
       ∃ rows : List Bytes, d = rows.flatten ∧ rows.length = h ∧
         processUncompressedBitmap b2 w h bd pdo cu true ch = .ok rows.reverse.flatten)
    ∧ (∀ e, processUncompressedBitmap b1 w h bd pdo cu false ch = .error e →
        processUncompressedBitmap b2 w h bd pdo cu true ch = .error e) := by
  refine rowsMap_flip h _ _
    (fun sy => uncompressedRow b2 bd (readPalette b2 cu) w ch
      (pdo + sy * ((bd * w + 31) / 32 * 4)))
    (fun y e h2 => uncompressedRow_errconst b2 bd _ w ch _ e h2) ?_ ?_
  · rw [processUncompressed_eq_rows]
    refine congrArg _ (mapM_congr _ _ _ (fun y _ => ?_))
    rw [if_neg (by simp), readPalette_congr b1 b2 hlen hag cu,
      uncompressedRow_congr b1 b2 hlen hag bd _ w ch _ (by omega)]
  · rw [processUncompressed_eq_rows]
    refine congrArg _ (mapM_congr _ _ _ (fun y _ => ?_))
    rw [if_pos rfl]

theorem processRLE8_flip (b1 b2 : Bytes) (hlen : b1.length = b2.length)
    (hag : ∀ j, j < 22 ∨ 26 ≤ j → b1.getD j 0 = b2.getD j 0)
    (w h pdo cu ch : Nat) (hpdo : 26 ≤ pdo) (hb2 : 26 ≤ b2.length) :
    (∀ d, processRLE8Bitmap b1 w h pdo cu false ch = .ok d →
       ∃ rows : List Bytes, d = rows.flatten ∧ rows.length = h ∧
         processRLE8Bitmap b2 w h pdo cu true ch = .ok rows.reverse.flatten)
    ∧ (∀ e, processRLE8Bitmap b1 w h pdo cu false ch = .error e →
        processRLE8Bitmap b2 w h pdo cu true ch = .error e) := by
  refine rowsMap_flip h _ _
    (fun sy => rleExpandRow (readPalette b2 cu)
      (rle8DecodeLoop b2 w h (b2.length + 1) 0 0 pdo (List.replicate (w * h) 0))
      w ch sy)
    (fun y e h2 => rleExpandRow_errconst _ _ w ch _ e h2) ?_ ?_
  · rw [processRLE8_eq_rows]
    refine congrArg _ (mapM_congr _ _ _ (fun y _ => ?_))
    rw [if_neg (by simp), readPalette_congr b1 b2 hlen hag cu, hlen,
      rle8DecodeLoop_congr b1 b2 hlen hag w h hb2 (b2.length + 1) 0 0 pdo
        (List.replicate (w * h) 0) hpdo]
  · rw [processRLE8_eq_rows]
    refine congrArg _ (mapM_congr _ _ _ (fun y _ => ?_))
    rw [if_pos rfl]

theorem processRLE4_flip (b1 b2 : Bytes) (hlen : b1.length = b2.length)
    (hag : ∀ j, j < 22 ∨ 26 ≤ j → b1.getD j 0 = b2.getD j 0)
    (w h pdo cu ch : Nat) (hpdo : 26 ≤ pdo) (hb2 : 26 ≤ b2.length) :
    (∀ d, processRLE4Bitmap b1 w h pdo cu false ch = .ok d →
       ∃ rows : List Bytes, d = rows.flatten ∧ rows.length = h ∧
         processRLE4Bitmap b2 w h pdo cu true ch = .ok rows.reverse.flatten)
    ∧ (∀ e, processRLE4Bitmap b1 w h pdo cu false ch = .error e →
        processRLE4Bitmap b2 w h pdo cu true ch = .error e) := by
  refine rowsMap_flip h _ _
    (fun sy => rleExpandRow (readPalette b2 cu)
      (rle4DecodeLoop b2 w h (b2.length + 1) 0 0 pdo (List.replicate (w * h) 0))
      w ch sy)
    (fun y e h2 => rleExpandRow_errconst _ _ w ch _ e h2) ?_ ?_
  · rw [processRLE4_eq_rows]
    refine congrArg _ (mapM_congr _ _ _ (fun y _ => ?_))
    rw [if_neg (by simp), readPalette_congr b1 b2 hlen hag cu, hlen,
      rle4DecodeLoop_congr b1 b2 hlen hag w h hb2 (b2.length + 1) 0 0 pdo
        (List.replicate (w * h) 0) hpdo]
  · rw [processRLE4_eq_rows]
    refine congrArg _ (mapM_congr _ _ _ (fun y _ => ?_))
    rw [if_pos rfl]

theorem processBitfields_eq (b : Bytes) (w h bd pdo hs ch : Nat) (itd : Bool) :
    processBitfieldsBitmap b w h bd pdo hs itd ch =
      (bitfieldsMaskRead b bd pdo hs >>= fun masks =>
        countBits (bitfieldsDefaultMasks masks bd).1 >>= fun redBits =>
        countBits (bitfieldsDefaultMasks masks bd).2.1 >>= fun greenBits =>
        countBits (bitfieldsDefaultMasks masks bd).2.2.1 >>= fun blueBits =>
        countBits (bitfieldsDefaultMasks masks bd).2.2.2 >>= fun alphaBits =>
        ((List.range h).mapM (fun y =>
          bitfieldsRow b bd (bitfieldsDefaultMasks masks bd).1
            (bitfieldsDefaultMasks masks bd).2.1
            (bitfieldsDefaultMasks masks bd).2.2.1
            (bitfieldsDefaultMasks masks bd).2.2.2
            (findLowestSetBit (bitfieldsDefaultMasks masks bd).1)
            (findLowestSetBit (bitfieldsDefaultMasks masks bd).2.1)
            (findLowestSetBit (bitfieldsDefaultMasks masks bd).2.2.1)
            (findLowestSetBit (bitfieldsDefaultMasks masks bd).2.2.2)
            (bitfieldsScale redBits) (bitfieldsScale greenBits)
            (bitfieldsScale blueBits) (bitfieldsScale alphaBits)
            w ch (pdo + (if itd then y else h - 1 - y) * ((bd * w + 31) / 32 * 4))
            (bd / 8))).map List.flatten) := rfl

theorem processBitfields_flip (b1 b2 : Bytes) (hlen : b1.length = b2.length)
    (hag : ∀ j, j < 22 ∨ 26 ≤ j → b1.getD j 0 = b2.getD j 0)
    (w h bd pdo hs ch : Nat) (hpdo : 26 ≤ pdo) :
    (∀ d, processBitfieldsBitmap b1 w h bd pdo hs false ch = .ok d →
       ∃ rows : List Bytes, d = rows.flatten ∧ rows.length = h ∧
         processBitfieldsBitmap b2 w h bd pdo hs true ch = .ok rows.reverse.flatten)
    ∧ (∀ e, processBitfieldsBitmap b1 w h bd pdo hs false ch = .error e →
        processBitfieldsBitmap b2 w h bd pdo hs true ch = .error e) := by
  have hL0 := processBitfields_eq b1 w h bd pdo hs ch false
  have hR0 := processBitfields_eq b2 w h bd pdo hs ch true
  rw [bitfieldsMaskRead_congr b1 b2 hlen hag bd pdo hs] at hL0
  cases hmk : bitfieldsMaskRead b2 bd pdo hs with
  | error e0 =>
    rw [hmk, exceptBind_error] at hL0 hR0
    exact flip_parts_of_error h _ _ e0 hL0 hR0
  | ok masks =>
    rw [hmk, exceptBind_ok] at hL0 hR0
    cases hcr : countBits (bitfieldsDefaultMasks masks bd).1 with
    | error e0 =>
      rw [hcr, exceptBind_error] at hL0 hR0
      exact flip_parts_of_error h _ _ e0 hL0 hR0
    | ok redBits =>
      rw [hcr, exceptBind_ok] at hL0 hR0
      cases hcg : countBits (bitfieldsDefaultMasks masks bd).2.1 with
      | error e0 =>
        rw [hcg, exceptBind_error] at hL0 hR0
        exact flip_parts_of_error h _ _ e0 hL0 hR0
      | ok greenBits =>
        rw [hcg, exceptBind_ok] at hL0 hR0
        cases hcb : countBits (bitfieldsDefaultMasks masks bd).2.2.1 with
        | error e0 =>
          rw [hcb, exceptBind_error] at hL0 hR0
          exact flip_parts_of_error h _ _ e0 hL0 hR0
        | ok blueBits =>
          rw [hcb, exceptBind_ok] at hL0 hR0
          cases hca : countBits (bitfieldsDefaultMasks masks bd).2.2.2 with
          | error e0 =>
            rw [hca, exceptBind_error] at hL0 hR0
            exact flip_parts_of_error h _ _ e0 hL0 hR0
          | ok alphaBits =>
            rw [hca, exceptBind_ok] at hL0 hR0
            refine rowsMap_flip h _ _
              (fun sy => bitfieldsRow b2 bd (bitfieldsDefaultMasks masks bd).1
                (bitfieldsDefaultMasks masks bd).2.1
                (bitfieldsDefaultMasks masks bd).2.2.1
                (bitfieldsDefaultMasks masks bd).2.2.2
                (findLowestSetBit (bitfieldsDefaultMasks masks bd).1)
                (findLowestSetBit (bitfieldsDefaultMasks masks bd).2.1)
                (findLowestSetBit (bitfieldsDefaultMasks masks bd).2.2.1)
                (findLowestSetBit (bitfieldsDefaultMasks masks bd).2.2.2)
                (bitfieldsScale redBits) (bitfieldsScale greenBits)
                (bitfieldsScale blueBits) (bitfieldsScale alphaBits)
                w ch (pdo + sy * ((bd * w + 31) / 32 * 4)) (bd / 8))
              (fun y e h2 => bitfieldsRow_errconst b2 bd _ _ _ _ _ _ _ _ _ _ _ _
                w ch _ _ e h2) ?_ ?_
            · rw [hL0]
              refine congrArg _ (mapM_congr _ _ _ (fun y _ => ?_))
              rw [if_neg (by simp),
                bitfieldsRow_congr b1 b2 hlen hag bd _ _ _ _ _ _ _ _ _ _ _ _
                  w ch _ _ (by omega)]
            · rw [hR0]
              refine congrArg _ (mapM_congr _ _ _ (fun y _ => ?_))
              rw [if_pos rfl]

theorem exceptThrow_bind (e : String) (f : α → Except String β) :
    ((throw e : Except String α) >>= f) = Except.error e := rfl

theorem exceptPure_bind (a : α) (f : α → Except String β) :
    ((pure a : Except String α) >>= f) = f a := rfl

theorem wrap_flip (L R : Except String Bytes) (h : Nat) (w hh : Int) (ch : Nat)
    (hparts : (∀ d, L = .ok d → ∃ rows : List Bytes, d = rows.flatten ∧
        rows.length = h ∧ R = .ok rows.reverse.flatten)
      ∧ (∀ e, L = .error e → R = .error e)) :
    (∀ img, (L >>= fun y =>
        (pure { width := w, height := hh, channels := ch, data := y } :
          Except String RGBImage)) = .ok img →
      ∃ rows : List Bytes, img.data = rows.flatten ∧ rows.length = h ∧
        (R >>= fun y =>
          (pure { width := w, height := hh, channels := ch, data := y } :
            Except String RGBImage)) = .ok { img with data := rows.reverse.flatten })
    ∧ (∀ e, (L >>= fun y =>
        (pure { width := w, height := hh, channels := ch, data := y } :
          Except String RGBImage)) = .error e →
      (R >>= fun y =>
        (pure { width := w, height := hh, channels := ch, data := y } :
          Except String RGBImage)) = .error e) := by
  constructor
  · intro img himg
    cases hbr : L with
    | error e2 =>
      rw [hbr, exceptBind_error] at himg
      simp at himg
    | ok d =>
      rw [hbr, exceptBind_ok] at himg
      have himg2 : (Except.ok { width := w, height := hh, channels := ch, data := d } :
          Except String RGBImage) = .ok img := himg
      injection himg2 with h3
      obtain ⟨rows, hd1, hl1, hR1⟩ := hparts.1 d hbr
      refine ⟨rows, ?_, hl1, ?_⟩
      · rw [← h3]
        exact hd1
      · rw [hR1, exceptBind_ok, ← h3]
        rfl
  · intro e he
    cases hbr : L with
    | ok d =>
      rw [hbr, exceptBind_ok] at he
      have he2 : (Except.ok { width := w, height := hh, channels := ch, data := d } :
          Except String RGBImage) = .error e := he
      simp at he2
    | error e2 =>
      rw [hbr, exceptBind_error] at he
      injection he with h3
      rw [hparts.2 e2 hbr, h3, exceptBind_error]

theorem bmpDecode_flip (b1 b2 : Bytes) (hlen : b1.length = b2.length)
    (hag : ∀ j, j < 22 ∨ 26 ≤ j → b1.getD j 0 = b2.getD j 0)
    (pdo hs : Nat) (w : Int) (h : Nat) (bd comp cu : Nat)
    (hpdo : 26 ≤ pdo) (hb2 : 26 ≤ b2.length) (hh0 : 0 < h) :
    (∀ img, bmpDecode b1 pdo hs w (h : Int) bd comp cu = .ok img →
       ∃ rows : List Bytes, img.data = rows.flatten ∧ rows.length = h ∧
         bmpDecode b2 pdo hs w (-(h : Int)) bd comp cu =
           .ok { img with data := rows.reverse.flatten })
    ∧ (∀ e, bmpDecode b1 pdo hs w (h : Int) bd comp cu = .error e →
        bmpDecode b2 pdo hs w (-(h : Int)) bd comp cu = .error e) := by
  have hna : ((h : Int)).natAbs = h := by omega
  have hnb : (-(h : Int)).natAbs = h := by omega
  have hd1 : decide ((h : Int) < 0) = false := by
    simp only [decide_eq_false_iff_not]
    omega
  have hd2 : decide (-(h : Int) < 0) = true := by
    simp only [decide_eq_true_eq]
    omega
  rcases comp with _ | _ | _ | _ | c
  · simp only [bmpDecode]
    rw [hna, hnb, hd1, hd2]
    by_cases hwneg : w < 0
    · rw [if_pos hwneg, if_pos hwneg, exceptThrow_bind]
      exact ⟨fun img himg => absurd himg (by simp), fun e he => he⟩
    · rw [if_neg hwneg, if_neg hwneg, exceptPure_bind, exceptPure_bind]
      exact wrap_flip _ _ h w _ _
        (processUncompressed_flip b1 b2 hlen hag w.toNat h bd pdo
          (if cu = 0 ∧ bd ≤ 8 then 1 <<< bd else cu) (if bd = 32 then 4 else 3) hpdo)
  · simp only [bmpDecode]
    rw [hna, hnb, hd1, hd2]
    by_cases hwneg : w < 0
    · rw [if_pos hwneg, if_pos hwneg, exceptThrow_bind]
      exact ⟨fun img himg => absurd himg (by simp), fun e he => he⟩
    · rw [if_neg hwneg, if_neg hwneg, exceptPure_bind, exceptPure_bind]
      by_cases hbd : bd ≠ 8
      · rw [if_pos hbd, if_pos hbd, exceptThrow_bind]
        exact ⟨fun img himg => absurd himg (by simp), fun e he => he⟩
      · rw [if_neg hbd, if_neg hbd]
        exact wrap_flip _ _ h w _ _
          (processRLE8_flip b1 b2 hlen hag w.toNat h pdo
            (if cu = 0 ∧ bd ≤ 8 then 1 <<< bd else cu) (if bd = 32 then 4 else 3) hpdo hb2)
  · simp only [bmpDecode]
    rw [hna, hnb, hd1, hd2]
    by_cases hwneg : w < 0
    · rw [if_pos hwneg, if_pos hwneg, exceptThrow_bind]
      exact ⟨fun img himg => absurd himg (by simp), fun e he => he⟩
    · rw [if_neg hwneg, if_neg hwneg, exceptPure_bind, exceptPure_bind]
      by_cases hbd : bd ≠ 4
      · rw [if_pos hbd, if_pos hbd, exceptThrow_bind]
        exact ⟨fun img himg => absurd himg (by simp), fun e he => he⟩
      · rw [if_neg hbd, if_neg hbd]
        exact wrap_flip _ _ h w _ _
          (processRLE4_flip b1 b2 hlen hag w.toNat h pdo
            (if cu = 0 ∧ bd ≤ 8 then 1 <<< bd else cu) (if bd = 32 then 4 else 3) hpdo hb2)
  · simp only [bmpDecode]
    rw [hna, hnb, hd1, hd2]
    by_cases hwneg : w < 0
    · rw [if_pos hwneg, if_pos hwneg, exceptThrow_bind]
      exact ⟨fun img himg => absurd himg (by simp), fun e he => he⟩
    · rw [if_neg hwneg, if_neg hwneg, exceptPure_bind, exceptPure_bind]
      by_cases hbd : ¬(bd = 16 ∨ bd = 32)
      · rw [if_pos hbd, if_pos hbd, exceptThrow_bind]
        exact ⟨fun img himg => absurd himg (by simp), fun e he => he⟩
      · rw [if_neg hbd, if_neg hbd]
        exact wrap_flip _ _ h w _ _
          (processBitfields_flip b1 b2 hlen hag w.toNat h bd pdo hs
            (if bd = 32 then 4 else 3) hpdo)
  · simp only [bmpDecode]
    rw [hna, hnb]
    by_cases hwneg : w < 0
    · rw [if_pos hwneg, exceptThrow_bind]
      exact ⟨fun img himg => absurd himg (by simp), fun e he => he⟩
    · rw [if_neg hwneg, exceptPure_bind, exceptThrow_bind]
      exact ⟨fun img himg => absurd himg (by simp), fun e he => he⟩

theorem writeBytes22_getD_out (base : Bytes) (v : Nat) (j : Nat)
    (hj : j < 22 ∨ 26 ≤ j) :
    (writeBytes base 22 (u32LE v)).getD j 0 = base.getD j 0 := by
  refine writeBytes_getD_outside (u32LE v) base 22 j ?_
  simp only [u32LE, List.length_cons, List.length_nil]
  omega

theorem peekU32_writeBytes22_out (base : Bytes) (v i : Nat)
    (hi : i + 3 < 22 ∨ 26 ≤ i) :
    peekU32 (writeBytes base 22 (u32LE v)) i = peekU32 base i := by
  rw [peekU32, peekU32, writeBytes22_getD_out base v i (by omega),
    writeBytes22_getD_out base v (i + 1) (by omega),
    writeBytes22_getD_out base v (i + 2) (by omega),
    writeBytes22_getD_out base v (i + 3) (by omega)]

theorem peekU16_writeBytes22_out (base : Bytes) (v i : Nat)
    (hi : i + 1 < 22 ∨ 26 ≤ i) :
    peekU16 (writeBytes base 22 (u32LE v)) i = peekU16 base i := by
  rw [peekU16, peekU16, writeBytes22_getD_out base v i (by omega),
    writeBytes22_getD_out base v (i + 1) (by omega)]

theorem peekI32_writeBytes22_out (base : Bytes) (v i : Nat)
    (hi : i + 3 < 22 ∨ 26 ≤ i) :
    peekI32 (writeBytes base 22 (u32LE v)) i = peekI32 base i := by
  rw [peekI32, peekI32, peekU32_writeBytes22_out base v i hi]

theorem peekU32_writeBytes22 (base : Bytes) (v : Nat) (hlen : 26 ≤ base.length)
    (hv : v < 2 ^ 32) :
    peekU32 (writeBytes base 22 (u32LE v)) 22 = v := by
  have e0 := writeBytes_getD_at (u32LE v) base 22 0 (by simp [u32LE]) (by simp [u32LE]; omega)
  have e1 := writeBytes_getD_at (u32LE v) base 22 1 (by simp [u32LE]) (by simp [u32LE]; omega)
  have e2 := writeBytes_getD_at (u32LE v) base 22 2 (by simp [u32LE]) (by simp [u32LE]; omega)
  have e3 := writeBytes_getD_at (u32LE v) base 22 3 (by simp [u32LE]) (by simp [u32LE]; omega)
  rw [Nat.add_zero] at e0
  rw [peekU32, e0, e1, e2, e3]
  simp only [u32LE, List.getD_cons_zero, List.getD_cons_succ]
  exact u32_reassemble v hv

theorem peekI32_writeBytes22_pos (base : Bytes) (h : Nat) (hlen : 26 ≤ base.length)
    (hh : h < 2 ^ 31) :
    peekI32 (writeBytes base 22 (u32LE h)) 22 = (h : Int) := by
  rw [peekI32, peekU32_writeBytes22 base h hlen (by omega), if_pos hh]

theorem peekI32_writeBytes22_neg (base : Bytes) (h : Nat) (hlen : 26 ≤ base.length)
    (hh0 : 0 < h) (hh : h < 2 ^ 31) :
    peekI32 (writeBytes base 22 (u32LE (2 ^ 32 - h))) 22 = -(h : Int) := by
  rw [peekI32, peekU32_writeBytes22 base (2 ^ 32 - h) hlen (by omega), if_neg (by omega)]
  omega

/-- C7 (corrected): flipping the sign of the height field (offset 22) turns a
bottom-up BMP into a top-down one; the decoder then reads the same rows in the
opposite vertical order, so for any parseable base image (valid BM signature,
pixel data starting at or after offset 26, 0 < height < 2^31) the two decoded
outputs are row-reversals of each other - not bit-identical - and any decode
error is the same on both sides. -/
theorem c7_sign_flip_row_reversal (base : Bytes) (h : Nat)
    (hlen : 50 ≤ base.length) (hsig0 : base.getD 0 0 = 0x42)
    (hsig1 : base.getD 1 0 = 0x4D) (hpdo : 26 ≤ peekU32 base 10)
    (hh0 : 0 < h) (hh : h < 2 ^ 31) :
    (∀ img, bmpToRgb (writeBytes base 22 (u32LE h)) = .ok img →
       ∃ rows : List Bytes, img.data = rows.flatten ∧ rows.length = h ∧
         bmpToRgb (writeBytes base 22 (u32LE (2 ^ 32 - h))) =
           .ok { img with data := rows.reverse.flatten })
    ∧ (∀ e, bmpToRgb (writeBytes base 22 (u32LE h)) = .error e →
        bmpToRgb (writeBytes base 22 (u32LE (2 ^ 32 - h))) = .error e) := by
  have hlp : (writeBytes base 22 (u32LE h)).length = base.length := writeBytes_length _ _ _
  have hln : (writeBytes base 22 (u32LE (2 ^ 32 - h))).length = base.length :=
    writeBytes_length _ _ _
  rw [bmpToRgb_parse (writeBytes base 22 (u32LE h)) (by omega)
      (by rw [writeBytes22_getD_out base h 0 (by omega)]; exact hsig0)
      (by rw [writeBytes22_getD_out base h 1 (by omega)]; exact hsig1),
    bmpToRgb_parse (writeBytes base 22 (u32LE (2 ^ 32 - h))) (by omega)
      (by rw [writeBytes22_getD_out base (2 ^ 32 - h) 0 (by omega)]; exact hsig0)
      (by rw [writeBytes22_getD_out base (2 ^ 32 - h) 1 (by omega)]; exact hsig1),
    peekU32_writeBytes22_out base h 10 (by omega),
    peekU32_writeBytes22_out base h 14 (by omega),
    peekI32_writeBytes22_out base h 18 (by omega),
    peekI32_writeBytes22_pos base h (by omega) hh,
    peekU16_writeBytes22_out base h 28 (by omega),
    peekU32_writeBytes22_out base h 30 (by omega),
    peekU32_writeBytes22_out base h 46 (by omega),
    peekU32_writeBytes22_out base (2 ^ 32 - h) 10 (by omega),
    peekU32_writeBytes22_out base (2 ^ 32 - h) 14 (by omega),
    peekI32_writeBytes22_out base (2 ^ 32 - h) 18 (by omega),
    peekI32_writeBytes22_neg base h (by omega) hh0 hh,
    peekU16_writeBytes22_out base (2 ^ 32 - h) 28 (by omega),
    peekU32_writeBytes22_out base (2 ^ 32 - h) 30 (by omega),
    peekU32_writeBytes22_out base (2 ^ 32 - h) 46 (by omega)]
  exact bmpDecode_flip (writeBytes base 22 (u32LE h))
    (writeBytes base 22 (u32LE (2 ^ 32 - h)))
    (by rw [hlp, hln])
    (fun j hj => by
      rw [writeBytes22_getD_out base h j hj, writeBytes22_getD_out base (2 ^ 32 - h) j hj])
    (peekU32 base 10) (peekU32 base 14) (peekI32 base 18) h (peekU16 base 28)
    (peekU32 base 30) (peekU32 base 46) hpdo (by omega) hh0

set_option maxRecDepth 10000 in
/-- C7 counterexample to the literal claim: c7pos and c7neg are byte-identical
except for the sign of the height field at offset 22 (heights +2 and -2 over
the same 24-bit 1x2 pixel data), both decode successfully, and their output
data differ: the rows come out in opposite order, not bit-identical. -/
theorem c7_sign_flip_not_bit_identical :
    (∀ i1 i2, bmpToRgb c7pos = .ok i1 → bmpToRgb c7neg = .ok i2 →
      i1.data ≠ i2.data) ∧
    bmpToRgb c7pos = .ok ⟨1, 2, 3, [6, 5, 4, 3, 2, 1]⟩ ∧
    bmpToRgb c7neg = .ok ⟨1, 2, 3, [3, 2, 1, 6, 5, 4]⟩ := by
  have e1 : bmpToRgb c7pos = .ok ⟨1, 2, 3, [6, 5, 4, 3, 2, 1]⟩ := by decide
  have e2 : bmpToRgb c7neg = .ok ⟨1, 2, 3, [3, 2, 1, 6, 5, 4]⟩ := by decide
  refine ⟨?_, e1, e2⟩
  intro i1 i2 h1 h2
  rw [e1] at h1
  rw [e2] at h2
  injection h1 with h1b
  injection h2 with h2b
  rw [← h1b, ← h2b]
  decide

set_option maxRecDepth 10000 in
/-- C7 witness: the amended row-reversal theorem applied to the concrete pair
c7pos and c7neg (height 2): decoding the negative-height twin yields the same
two rows in reverse order. -/
theorem c7_sign_flip_witness :
    50 ≤ c7base.length ∧
    ∃ rows : List Bytes, ([6, 5, 4, 3, 2, 1] : Bytes) = rows.flatten ∧
      rows.length = 2 ∧
      bmpToRgb (writeBytes c7base 22 (u32LE (2 ^ 32 - 2))) =
        .ok { width := 1, height := 2, channels := 3, data := rows.reverse.flatten } :=
  ⟨by decide,
   (c7_sign_flip_row_reversal c7base 2 (by decide) (by decide) (by decide) (by decide)
      (by decide) (by decide)).1
     { width := 1, height := 2, channels := 3, data := [6, 5, 4, 3, 2, 1] }
     (by decide)⟩
